import Mathlib

/-!
Verification of the in-process product-catalog search engine
(`InMemoryProductRepository`, `Product`, `SearchQuery`, `SearchService`).

Shallow embedding conventions:
* JavaScript numbers are modelled as exact fractions `Frac` (prices,
  ratings, scores) and `ℤ` (millisecond timestamps).  `Math.log` is an
  environment-supplied function `mlog : Frac → Frac`, since the runtime's
  transcendental library is outside the program text.
* JavaScript `Map` is modelled by an insertion-ordered association list
  (`JsMap`): `set` replaces in place or appends, `delete` removes, and
  iteration order is list order, matching the ECMAScript specification.
* JavaScript `Set` is modelled by a duplicate-free `List ℕ`:
  `add` appends when absent, `delete` removes the element.
* Absent string fields are modelled by `""` (falsy, like `undefined` in
  the truthiness tests of the source); optional numeric fields by
  `Option Frac`.
* `x || d` on numbers/strings is `jsOr*` below: the default is taken when
  the value is absent **or** zero / empty, as in JavaScript.
-/

/-- JavaScript numbers, as exact fractions: a numerator/denominator pair of
integers.  All constructions below keep the denominator positive.  (The
built-in `ℚ` normalizes through `@[irreducible]` operations, which blocks
concrete evaluation; this explicit representation evaluates by `decide`.)
Equality of numeric *values* is `Frac.eqv`; the structural `=` is only used
for whole-response comparisons where both sides are produced by the very
same computation. -/
structure Frac where
  num : ℤ
  den : ℤ
deriving DecidableEq

instance (n : ℕ) : OfNat Frac n := ⟨⟨(n : ℤ), 1⟩⟩

instance : OfScientific Frac :=
  ⟨fun m b e => if b then ⟨(m : ℤ), ((10 ^ e : ℕ) : ℤ)⟩ else ⟨(m : ℤ) * ((10 ^ e : ℕ) : ℤ), 1⟩⟩

instance : Add Frac := ⟨fun x y => ⟨x.num * y.den + y.num * x.den, x.den * y.den⟩⟩

instance : Neg Frac := ⟨fun x => ⟨-x.num, x.den⟩⟩

instance : Sub Frac := ⟨fun x y => x + -y⟩

instance : Mul Frac := ⟨fun x y => ⟨x.num * y.num, x.den * y.den⟩⟩

/-- Division; division by zero is modelled as `0` (it only arises where the
source cannot reach it with a zero divisor). -/
instance : Div Frac := ⟨fun x y =>
  if y.num = 0 then ⟨0, 1⟩
  else if 0 < y.num then ⟨x.num * y.den, x.den * y.num⟩
  else ⟨-(x.num * y.den), x.den * (-y.num)⟩⟩

instance : LE Frac := ⟨fun x y => x.num * y.den ≤ y.num * x.den⟩

instance : LT Frac := ⟨fun x y => x.num * y.den < y.num * x.den⟩

instance (x y : Frac) : Decidable (x ≤ y) :=
  inferInstanceAs (Decidable (x.num * y.den ≤ y.num * x.den))

instance (x y : Frac) : Decidable (x < y) :=
  inferInstanceAs (Decidable (x.num * y.den < y.num * x.den))

namespace Frac

/-- Numeric equality (JS `===` on numbers): cross-multiplication. -/
def eqv (x y : Frac) : Bool := x.num * y.den == y.num * x.den

/-- Embed an integer. -/
def ofInt (n : ℤ) : Frac := ⟨n, 1⟩

end Frac

/-- JS `Math.max(x, y)`. -/
def fmax (x y : Frac) : Frac := if x ≤ y then y else x

/-- JS `Math.min(x, y)`. -/
def fmin (x y : Frac) : Frac := if x ≤ y then x else y

/-- Floor (positive denominators, so `Int.fdiv` is mathematical floor). -/
def ffloor (x : Frac) : ℤ := x.num.fdiv x.den

/-- JS `Math.round`: half-up rounding, `⌊x + 1/2⌋`. -/
def jsRound (x : Frac) : ℤ := ffloor (x + (0.5 : Frac))

/-- JS `opt || d` for numbers: `undefined`, `NaN` and `0` are falsy. -/
def jsOrQ (o : Option Frac) (d : Frac) : Frac :=
  match o with
  | none => d
  | some v => if v.eqv 0 then d else v

/-- JS `opt || d` for integers (`parseInt(x) || d`). -/
def jsOrInt (o : Option ℤ) (d : ℤ) : ℤ :=
  match o with
  | none => d
  | some v => if v = 0 then d else v

/-- JS `opt || d` for strings: `undefined` and `""` are falsy. -/
def jsOrStr (o : Option String) (d : String) : String :=
  match o with
  | none => d
  | some v => if v = "" then d else v

/-- Truthiness of an optional number (`if (x)`). -/
def jsTruthyQ (o : Option Frac) : Bool :=
  match o with
  | none => false
  | some v => !v.eqv 0

/-- Truthiness of an optional string (`if (x)`). -/
def jsTruthyStr (o : Option String) : Bool :=
  match o with
  | none => false
  | some v => v ≠ ""

/-- Normalize one `Array.prototype.slice` index against length `n`. -/
def jsSliceIdx (n : ℕ) (i : ℤ) : ℕ :=
  if i < 0 then ((n : ℤ) + i).toNat else min i.toNat n

/-- JS `Array.prototype.slice(start, end)`. -/
def jsSlice {α : Type} (l : List α) (s e : ℤ) : List α :=
  let f := jsSliceIdx l.length s
  let t := jsSliceIdx l.length e
  (l.drop f).take (t - f)

/-! ### String helpers (structural, so that `decide`/`rfl` can evaluate) -/

/-- `List.isPrefixOf` with decidable equality, structural recursion. -/
def listIsPre {α : Type} [DecidableEq α] : List α → List α → Bool
  | [], _ => true
  | _ :: _, [] => false
  | a :: as, b :: bs => if a = b then listIsPre as bs else false

/-- Substring test on character lists (JS `String.prototype.includes`). -/
def listIsSub {α : Type} [DecidableEq α] (needle : List α) : List α → Bool
  | [] => needle.isEmpty
  | c :: rest => listIsPre needle (c :: rest) || listIsSub needle rest

/-- JS `hay.includes(needle)`. -/
def strIncludes (hay needle : String) : Bool := listIsSub needle.data hay.data

/-- JS `s.startsWith(t)`. -/
def strStarts (s t : String) : Bool := listIsPre t.data s.data

/-- JS `s.endsWith(t)`. -/
def strEnds (s t : String) : Bool := listIsPre t.data.reverse s.data.reverse

/-- JS `s.toLowerCase()` (ASCII, which covers the catalog data). -/
def jsToLower (s : String) : String := ⟨s.data.map Char.toLower⟩

/-- JS `s.trim()`. -/
def jsTrim (s : String) : String :=
  ⟨((s.data.dropWhile Char.isWhitespace).reverse.dropWhile Char.isWhitespace).reverse⟩

/-- JS regexp `\w`: ASCII alphanumeric or underscore. -/
def isWordChar (c : Char) : Bool := (c.isAlpha || c.isDigit) || c = '_'

/-- Split a character list into maximal runs of word / non-word characters,
each run tagged with whether it is a word run. -/
def splitRuns : List Char → List (Bool × List Char)
  | [] => []
  | c :: cs =>
    match splitRuns cs with
    | [] => [(isWordChar c, [c])]
    | (b, run) :: rest =>
      if b = isWordChar c then (b, c :: run) :: rest
      else (isWordChar c, [c]) :: (b, run) :: rest

/-- Global word-boundary replacement `s.replace(/\bkey\b/gi, val)` for a key
made of word characters: such a match is exactly a maximal word run equal
(case-insensitively) to the key. -/
def replaceWord (key val : String) (s : String) : String :=
  ⟨((splitRuns s.data).map (fun br =>
      if br.1 && (br.2.map Char.toLower = key.data) then val.data else br.2)).foldr
    (· ++ ·) []⟩

/-- Split on `/\s+/` and drop empty pieces (the later `length > 1` filters
discard empty strings anyway, so maximal non-whitespace runs suffice). -/
def splitWhitespaceRuns (s : String) : List String :=
  ((splitRuns' s.data).filter (fun br => !br.1)).map (fun br => ⟨br.2⟩)
where
  /-- runs tagged with whether they are whitespace runs -/
  splitRuns' : List Char → List (Bool × List Char)
    | [] => []
    | c :: cs =>
      match splitRuns' cs with
      | [] => [(c.isWhitespace, [c])]
      | (b, run) :: rest =>
        if b = c.isWhitespace then (b, c :: run) :: rest
        else (c.isWhitespace, [c]) :: (b, run) :: rest

/-- JS `term.replace(/[^a-z0-9]/gi, "")`: keep ASCII alphanumerics. -/
def keepAlnum (s : String) : String := ⟨s.data.filter (fun c => c.isAlpha || c.isDigit)⟩

/-- The shared token-extraction rule: split on whitespace, keep pieces of
length > 1, strip non-alphanumerics, keep length > 1 again
(`extractSearchTerms` / `getSearchTerms`). -/
def tokenize (s : String) : List String :=
  (((splitWhitespaceRuns s).filter (fun t => t.length > 1)).map keepAlnum).filter
    (fun t => t.length > 1)

/-- Levenshtein inner cell computation: walk the remaining columns.
`diag` is the entry above-left, `left` the entry just computed on this row,
`prev` the remaining entries of the previous row (the "above" cells). -/
def levWalk (c2 : Char) : List Char → List ℕ → ℕ → ℕ → List ℕ
  | [], _, _, _ => []
  | _ :: _, [], _, _ => []
  | c1 :: cs, above :: prev, diag, left =>
    let cell := if c1 = c2 then diag else (min (min diag left) above) + 1
    cell :: levWalk c2 cs prev above cell

/-- One row of the Levenshtein matrix (`matrix[i]`), from the previous row. -/
def levRow (cs1 : List Char) (c2 : Char) (prev : List ℕ) (i : ℕ) : List ℕ :=
  i :: levWalk c2 cs1 (prev.drop 1) (prev.headD 0) i

/-- Iterate the rows over the second string. -/
def levRows (cs1 : List Char) : List Char → List ℕ → ℕ → List ℕ
  | [], row, _ => row
  | c2 :: rest, row, i => levRows cs1 rest (levRow cs1 c2 row i) (i + 1)

/-- `SearchService.levenshteinDistance(str1, str2)`: the standard DP matrix,
rows indexed by `str2`, columns by `str1`; result `matrix[len2][len1]`. -/
def levenshteinDistance (str1 str2 : String) : ℕ :=
  (levRows str1.data str2.data (List.range (str1.data.length + 1)) 1).getLastD 0

/-! ### JavaScript `Map` model -/

/-- Insertion-ordered association list standing for a JS `Map`. -/
def JsMap (K V : Type) : Type := List (K × V)

namespace JsMap

variable {K V : Type} [DecidableEq K]

/-- The empty map. -/
def empty : JsMap K V := ([] : List (K × V))

/-- `map.get(key)` -/
def get? : JsMap K V → K → Option V
  | [], _ => none
  | (k, v) :: rest, key => if k = key then some v else get? rest key

/-- `map.set(key, val)`: replace in place, else append (insertion order). -/
def set : JsMap K V → K → V → JsMap K V
  | [], key, val => [(key, val)]
  | (k, v) :: rest, key, val =>
    if k = key then (k, val) :: rest else (k, v) :: set rest key val

/-- `map.delete(key)`.  A JS `Map` holds each key at most once, so deleting
the key is removing every entry carrying it. -/
def del : JsMap K V → K → JsMap K V
  | [], _ => []
  | (a, b) :: rest, key => if a = key then del rest key else (a, b) :: del rest key

/-- `map.size` -/
def size (m : JsMap K V) : ℕ := List.length m

/-- `map.keys().next().value`: the first key in insertion order. -/
def firstKey? (m : JsMap K V) : Option K := m.head?.map Prod.fst

/-- `Array.from(map.values())` in insertion order. -/
def values (m : JsMap K V) : List V := m.map Prod.snd

instance [DecidableEq V] : DecidableEq (JsMap K V) :=
  inferInstanceAs (DecidableEq (List (K × V)))

end JsMap

/-! ### `Product` (src/models/Product.js) -/

/-- The `analytics` dynamic property bag, with its optional members. -/
structure Analytics where
  unitsSold : Option Frac := none
  returnRate : Option Frac := none
  profitMargin : Option Frac := none
  isTrending : Bool := false
  isOnSale : Bool := false
deriving DecidableEq

/-- A constructed `Product` instance (its own data properties). -/
structure Product where
  productId : ℕ
  title : String
  description : String := ""
  category : String := ""
  subcategory : String := ""
  brand : String := ""
  model : String := ""
  price : Frac
  mrp : Option Frac := none
  currency : String := "INR"
  rating : Frac := 0
  ratingCount : Frac := 0
  stock : Frac := 0
  isActive : Bool := true
  imageUrls : List String := []
  metadata : List (String × String) := []
  analytics : Analytics := {}
  searchableText : String := ""
  tags : List String := []
  createdAt : ℤ := 0
  updatedAt : ℤ := 0
deriving DecidableEq

/-- JS `Array.prototype.join(" ")`. -/
def joinSpace : List String → String
  | [] => ""
  | [s] => s
  | s :: rest => s ++ " " ++ joinSpace rest

/-- `Product.generateSearchableText`, over the contributing field values:
title, description, brand, model, category, subcategory, tags, metadata
values, dropping falsy (empty) entries, joined and lower-cased. -/
def generateSearchableTextFrom (title description brand model category subcategory : String)
    (tags : List String) (metadata : List (String × String)) : String :=
  jsToLower (joinSpace
    (([title, description, brand, model, category, subcategory] ++ tags
      ++ metadata.map Prod.snd).filter (fun s => s ≠ "")))

namespace Product

/-- `generateSearchableText()` applied to a product's current fields. -/
def generateSearchableText (p : Product) : String :=
  generateSearchableTextFrom p.title p.description p.brand p.model p.category
    p.subcategory p.tags p.metadata

/-- `calculateDiscount()`: `if (!this.mrp || this.mrp <= this.price) return 0`
then half-up rounding of the percentage. -/
def calculateDiscount (p : Product) : ℤ :=
  match p.mrp with
  | none => 0
  | some m => if m.eqv 0 then 0 else if m ≤ p.price then 0
      else jsRound ((m - p.price) / m * 100)

/-- `getStockStatus()` -/
def getStockStatus (p : Product) : String :=
  if p.stock.eqv 0 then "OUT_OF_STOCK"
  else if p.stock ≤ 10 then "LOW_STOCK"
  else if p.stock ≤ 50 then "MEDIUM_STOCK"
  else "HIGH_STOCK"

/-- `getPriceRange()` -/
def getPriceRange (p : Product) : String :=
  if p.price < 1000 then "0-1000"
  else if p.price < 5000 then "1000-5000"
  else if p.price < 10000 then "5000-10000"
  else if p.price < 25000 then "10000-25000"
  else if p.price < 50000 then "25000-50000"
  else if p.price < 100000 then "50000-100000"
  else "100000+"

/-- `getRatingBucket()` -/
def getRatingBucket (p : Product) : String :=
  if p.rating ≥ 4.5 then "4.5+"
  else if p.rating ≥ 4.0 then "4.0-4.5"
  else if p.rating ≥ 3.5 then "3.5-4.0"
  else if p.rating ≥ 3.0 then "3.0-3.5"
  else if p.rating ≥ 2.0 then "2.0-3.0"
  else "below-2.0"

end Product

/-! ### Search result projection (`Product.toSearchResult` and the plain
fallback projection in `SearchService.performSearch`) -/

/-- The public search-result projection of a product. -/
structure SearchResultItem where
  productId : ℕ
  title : String
  description : String
  price : Frac
  mrp : Option Frac
  currency : String
  discount : ℤ
  rating : Frac
  ratingCount : Frac
  stock : Frac
  stockStatus : String
  brand : String
  category : String
  imageUrls : List String
  metadata : List (String × String)
  relevanceScore : Frac
  tags : List String
deriving DecidableEq

/-- `Product.toSearchResult(query, relevanceScore)`. -/
def Product.toSearchResult (p : Product) (relevanceScore : Frac) : SearchResultItem where
  productId := p.productId
  title := p.title
  description := p.description
  price := p.price
  mrp := p.mrp
  currency := p.currency
  discount := p.calculateDiscount
  rating := p.rating
  ratingCount := p.ratingCount
  stock := p.stock
  stockStatus := p.getStockStatus
  brand := p.brand
  category := p.category
  imageUrls := p.imageUrls.take 3
  metadata := p.metadata
  relevanceScore := Frac.ofInt (jsRound (relevanceScore * 100)) / 100
  tags := p.tags

/-! ### `SearchQuery` (src/models/SearchQuery.js) -/

/-- The `hinglishMap` substitution table, in source (insertion) order. -/
def hinglishMap : List (String × String) :=
  [("sasta", "cheap"), ("sastey", "cheap"), ("saste", "cheap"),
   ("accha", "good"), ("achha", "good"), ("acche", "good"),
   ("best", "best"), ("latest", "latest"), ("new", "new"),
   ("purana", "old"), ("phone", "phone"), ("mobile", "mobile"),
   ("laptop", "laptop"), ("headphone", "headphone"), ("earphone", "earphone"),
   ("cover", "cover"), ("case", "case"), ("charger", "charger"),
   ("paisa", "rupees"), ("rupees", "rupees"), ("rs", "rupees"),
   ("price", "price")]

/-- The `misspellingMap` correction table, in source (insertion) order. -/
def misspellingMap : List (String × String) :=
  [("ifone", "iphone"), ("iphone", "iphone"), ("samsang", "samsung"),
   ("samsoong", "samsung"), ("laptop", "laptop"), ("leptop", "laptop"),
   ("hedphone", "headphone"), ("hedphones", "headphones"),
   ("moblile", "mobile"), ("mobil", "mobile"), ("charjer", "charger"),
   ("chargur", "charger"), ("covr", "cover"), ("cver", "cover")]

/-- `normalizeHinglishQuery`: fold the regional-term table over the whole
string, each entry as a global word-boundary replacement. -/
def normalizeHinglishQuery (q : String) : String :=
  hinglishMap.foldl (fun acc kv => replaceWord kv.1 kv.2 acc) q

/-- `correctCommonMisspellings`: same mechanism with the misspelling table. -/
def correctCommonMisspellings (q : String) : String :=
  misspellingMap.foldl (fun acc kv => replaceWord kv.1 kv.2 acc) q

/-- `SearchQuery.normalize()`: trim, lower-case, Hinglish table, then
misspelling table, sequentially. -/
def normalizeQuery (q : String) : String :=
  correctCommonMisspellings (normalizeHinglishQuery (jsToLower (jsTrim q)))

/-- A constructed, validated, normalized `SearchQuery` instance. -/
structure SearchQuery where
  query : String
  limit : ℤ
  offset : ℤ
  sortBy : String
  category : Option String := none
  brand : Option String := none
  minPrice : Option Frac := none
  maxPrice : Option Frac := none
  minRating : Option Frac := none
  inStock : Bool := false
  priceRange : Option String := none
  ratingRange : Option String := none
deriving DecidableEq

/-- Raw request parameters handed to `new SearchQuery(params)`; numeric
parameters are modelled already parsed (`parseInt`/`parseFloat` results),
with `none` for an absent field. -/
structure RawParams where
  query : Option String := none
  limit : Option ℤ := none
  offset : Option ℤ := none
  sortBy : Option String := none
  category : Option String := none
  brand : Option String := none
  minPrice : Option Frac := none
  maxPrice : Option Frac := none
  minRating : Option Frac := none
  inStock : Option String := none
  priceRange : Option String := none
  ratingRange : Option String := none
deriving DecidableEq

/-- `params.x ? parseFloat(params.x) : null` (numeric truthiness). -/
def jsTernaryQ (o : Option Frac) : Option Frac :=
  match o with
  | none => none
  | some v => if v.eqv 0 then none else some v

/-- `isValidSortBy()` option list. -/
def validSortOptions : List String :=
  ["relevance", "price_low", "price_high", "rating", "popularity", "newest"]

/-- The `SearchQuery` constructor: field normalization (`limit` capped at
100 with default 20, `offset` clamped to ≥ 0), `validate()` (throwing on
min/max price inversion, out-of-range rating, invalid `sortBy`), then
`normalize()` of the query text. -/
def mkSearchQuery (p : RawParams) : Except String SearchQuery :=
  let query := jsOrStr p.query ""
  let limit := min (jsOrInt p.limit 20) 100
  let offset := max (jsOrInt p.offset 0) 0
  let sortBy := jsOrStr p.sortBy "relevance"
  let minPrice := jsTernaryQ p.minPrice
  let maxPrice := jsTernaryQ p.maxPrice
  let minRating := jsTernaryQ p.minRating
  let inStock := p.inStock == some "true"
  if jsTruthyQ minPrice && jsTruthyQ maxPrice &&
      decide (maxPrice.getD 0 < minPrice.getD 0) then
    .error "Minimum price cannot be greater than maximum price"
  else if jsTruthyQ minRating &&
      (decide (minRating.getD 0 < 0) || decide ((5 : Frac) < minRating.getD 0)) then
    .error "Rating must be between 0 and 5"
  else if !(validSortOptions.contains sortBy) then
    .error "Invalid sortBy value. Allowed values: relevance, price_low, price_high, rating, popularity, newest"
  else
    .ok { query := normalizeQuery query, limit := limit, offset := offset,
          sortBy := sortBy, category := p.category, brand := p.brand,
          minPrice := minPrice, maxPrice := maxPrice, minRating := minRating,
          inStock := inStock, priceRange := p.priceRange,
          ratingRange := p.ratingRange }

/-- `getSearchTerms()`: the shared token-extraction rule on the normalized
query (it is already lower-case). -/
def SearchQuery.getSearchTerms (q : SearchQuery) : List String := tokenize q.query

/-- `matchesFilters(product)`. -/
def SearchQuery.matchesFilters (q : SearchQuery) (p : Product) : Bool :=
  if jsTruthyStr q.category && !(jsToLower p.category == jsToLower (q.category.getD "")) then
    false
  else if jsTruthyStr q.brand && !(jsToLower p.brand == jsToLower (q.brand.getD "")) then
    false
  else if q.minPrice.isSome && decide (p.price < q.minPrice.getD 0) then
    false
  else if q.maxPrice.isSome && decide (q.maxPrice.getD 0 < p.price) then
    false
  else if q.minRating.isSome && decide (p.rating < q.minRating.getD 0) then
    false
  else if q.inStock && decide (p.stock ≤ 0) then
    false
  else
    true

/-! ### `InMemoryProductRepository` (src/repositories/ProductRepository.js) -/

/-- `extractSearchTerms(text)`: lower-case, then the shared token rule. -/
def extractSearchTerms (text : String) : List String := tokenize (jsToLower text)

/-- An index bucket operation: `if (!m.has(k)) m.set(k, new Set()); m.get(k).add(id)`. -/
def bucketAdd (m : JsMap String (List ℕ)) (k : String) (id : ℕ) : JsMap String (List ℕ) :=
  match m.get? k with
  | none => m.set k [id]
  | some l => m.set k (if id ∈ l then l else l ++ [id])

/-- An index bucket removal: `const s = m.get(k); if (s) { s.delete(id);
if (s.size === 0) m.delete(k); }` (a JS `Set` holds no duplicates, so
`Set.delete` is modelled by `filter`). -/
def bucketRemove (m : JsMap String (List ℕ)) (k : String) (id : ℕ) : JsMap String (List ℕ) :=
  match m.get? k with
  | none => m
  | some l =>
    if l.filter (fun x => x ≠ id) = [] then m.del k
    else m.set k (l.filter (fun x => x ≠ id))

/-- The repository: the primary product map plus the six secondary indexes.
`nextId` is the id counter used by `add`. -/
structure Repo where
  products : JsMap ℕ Product := JsMap.empty
  nextId : ℕ := 1
  searchIndex : JsMap String (List ℕ) := JsMap.empty
  categoryIndex : JsMap String (List ℕ) := JsMap.empty
  brandIndex : JsMap String (List ℕ) := JsMap.empty
  priceRangeIndex : JsMap String (List ℕ) := JsMap.empty
  ratingBucketIndex : JsMap String (List ℕ) := JsMap.empty
  stockStatusIndex : JsMap String (List ℕ) := JsMap.empty
deriving DecidableEq

namespace Repo

/-- `addToSearchIndex`: one bucket add per extracted term of `searchableText`. -/
def addToSearchIndex (p : Product) (r : Repo) : Repo :=
  let m := (extractSearchTerms p.searchableText).foldl
    (fun m t => bucketAdd m t p.productId) r.searchIndex
  { r with searchIndex := m }

/-- `removeFromSearchIndex`. -/
def removeFromSearchIndex (p : Product) (r : Repo) : Repo :=
  let m := (extractSearchTerms p.searchableText).foldl
    (fun m t => bucketRemove m t p.productId) r.searchIndex
  { r with searchIndex := m }

/-- `addToCategoryIndex` (guarded by `if (product.category)`; a falsy
category leaves the index untouched). -/
def addToCategoryIndex (p : Product) (r : Repo) : Repo :=
  { r with categoryIndex :=
      if p.category ≠ "" then bucketAdd r.categoryIndex (jsToLower p.category) p.productId
      else r.categoryIndex }

/-- `removeFromCategoryIndex`. -/
def removeFromCategoryIndex (p : Product) (r : Repo) : Repo :=
  { r with categoryIndex :=
      if p.category ≠ "" then bucketRemove r.categoryIndex (jsToLower p.category) p.productId
      else r.categoryIndex }

/-- `addToBrandIndex` (guarded by `if (product.brand)`). -/
def addToBrandIndex (p : Product) (r : Repo) : Repo :=
  { r with brandIndex :=
      if p.brand ≠ "" then bucketAdd r.brandIndex (jsToLower p.brand) p.productId
      else r.brandIndex }

/-- `removeFromBrandIndex`. -/
def removeFromBrandIndex (p : Product) (r : Repo) : Repo :=
  { r with brandIndex :=
      if p.brand ≠ "" then bucketRemove r.brandIndex (jsToLower p.brand) p.productId
      else r.brandIndex }

/-- `addToPriceRangeIndex`. -/
def addToPriceRangeIndex (p : Product) (r : Repo) : Repo :=
  { r with priceRangeIndex := bucketAdd r.priceRangeIndex p.getPriceRange p.productId }

/-- `removeFromPriceRangeIndex`. -/
def removeFromPriceRangeIndex (p : Product) (r : Repo) : Repo :=
  { r with priceRangeIndex := bucketRemove r.priceRangeIndex p.getPriceRange p.productId }

/-- `addToRatingBucketIndex`. -/
def addToRatingBucketIndex (p : Product) (r : Repo) : Repo :=
  { r with ratingBucketIndex := bucketAdd r.ratingBucketIndex p.getRatingBucket p.productId }

/-- `removeFromRatingBucketIndex`. -/
def removeFromRatingBucketIndex (p : Product) (r : Repo) : Repo :=
  { r with ratingBucketIndex := bucketRemove r.ratingBucketIndex p.getRatingBucket p.productId }

/-- `addToStockStatusIndex`. -/
def addToStockStatusIndex (p : Product) (r : Repo) : Repo :=
  { r with stockStatusIndex := bucketAdd r.stockStatusIndex p.getStockStatus p.productId }

/-- `removeFromStockStatusIndex`. -/
def removeFromStockStatusIndex (p : Product) (r : Repo) : Repo :=
  { r with stockStatusIndex := bucketRemove r.stockStatusIndex p.getStockStatus p.productId }

/-- `updateIndexes(product)`: insert into all six indexes. -/
def updateIndexes (p : Product) (r : Repo) : Repo :=
  addToStockStatusIndex p (addToRatingBucketIndex p (addToPriceRangeIndex p
    (addToBrandIndex p (addToCategoryIndex p (addToSearchIndex p r)))))

/-- `removeFromIndexes(product)`: remove from all six indexes. -/
def removeFromIndexes (p : Product) (r : Repo) : Repo :=
  removeFromStockStatusIndex p (removeFromRatingBucketIndex p (removeFromPriceRangeIndex p
    (removeFromBrandIndex p (removeFromCategoryIndex p (removeFromSearchIndex p r)))))

/-- Store an already-constructed product and index it (the effect of a
successful `add(productData)` once the `Product` constructor has run). -/
def addProduct (p : Product) (r : Repo) : Repo :=
  updateIndexes p { r with products := r.products.set p.productId p }

/-- `search(query, options)`: union of token postings over the extracted
terms of the raw query string, then the optional index-backed filters. -/
def search (r : Repo) (query : String) (category brand priceRange ratingRange : Option String)
    (inStock : Bool) : List Product :=
  let searchTerms := extractSearchTerms query
  let matchingIds := searchTerms.foldl (fun acc t =>
    match r.searchIndex.get? t with
    | none => acc
    | some postings => postings.foldl (fun acc' id => if id ∈ acc' then acc' else acc' ++ [id]) acc)
    []
  let products := matchingIds.filterMap (fun id => r.products.get? id)
  let products := if jsTruthyStr category then
      let ids := (r.categoryIndex.get? (jsToLower (category.getD ""))).getD []
      products.filter (fun p => p.productId ∈ ids)
    else products
  let products := if jsTruthyStr brand then
      let ids := (r.brandIndex.get? (jsToLower (brand.getD ""))).getD []
      products.filter (fun p => p.productId ∈ ids)
    else products
  let products := if jsTruthyStr priceRange then
      let ids := (r.priceRangeIndex.get? (priceRange.getD "")).getD []
      products.filter (fun p => p.productId ∈ ids)
    else products
  let products := if jsTruthyStr ratingRange then
      let ids := (r.ratingBucketIndex.get? (ratingRange.getD "")).getD []
      products.filter (fun p => p.productId ∈ ids)
    else products
  let products := if inStock then
      let hi := (r.stockStatusIndex.get? "HIGH_STOCK").getD []
      let med := (r.stockStatusIndex.get? "MEDIUM_STOCK").getD []
      let lo := (r.stockStatusIndex.get? "LOW_STOCK").getD []
      products.filter (fun p => p.productId ∈ hi || p.productId ∈ med || p.productId ∈ lo)
    else products
  products

end Repo

/-! ### Repository `update` and the `Product` constructor on merged data -/

/-- A `partial` update object for `update(productId, updateData)`: `some`
fields override the corresponding field of the existing product's
`toJSON()` image under object spread. -/
structure UpdateData where
  title : Option String := none
  description : Option String := none
  category : Option String := none
  subcategory : Option String := none
  brand : Option String := none
  model : Option String := none
  price : Option Frac := none
  mrp : Option Frac := none
  currency : Option String := none
  rating : Option Frac := none
  ratingCount : Option Frac := none
  stock : Option Frac := none
  isActive : Option Bool := none
  imageUrls : Option (List String) := none
  metadata : Option (List (String × String)) := none
  analytics : Option Analytics := none
  searchableText : Option String := none
  tags : Option (List String) := none
  createdAt : Option ℤ := none
deriving DecidableEq

/-- `Product.validate()`, as run by the constructor. -/
def validateProduct (p : Product) : Except String Product :=
  if jsTrim p.title = "" then .error "Product title is required"
  else if p.price.eqv 0 || decide (p.price ≤ 0) then .error "Product price must be greater than 0"
  else if decide (p.rating < 0) || decide ((5 : Frac) < p.rating) then
    .error "Rating must be between 0 and 5"
  else if decide (p.stock < 0) then .error "Stock cannot be negative"
  else .ok p

/-- `new Product({...existing.toJSON(), ...updateData, productId, updatedAt})`:
the spread merge followed by the constructor.  Note that the constructor
takes the provided `searchableText` whenever it is truthy
(`data.searchableText || this.generateSearchableText()`), so the merged
value — the *prior* product's `searchableText` unless the update supplies
one — is kept verbatim when non-empty. -/
def mergeUpdate (old : Product) (u : UpdateData) (id : ℕ) (now : ℤ) : Except String Product :=
  let title := u.title.getD old.title
  let description := u.description.getD old.description
  let category := u.category.getD old.category
  let subcategory := u.subcategory.getD old.subcategory
  let brand := u.brand.getD old.brand
  let model := u.model.getD old.model
  let price := u.price.getD old.price
  let mrp := match u.mrp with | some m => some m | none => old.mrp
  let currency := jsOrStr (some (u.currency.getD old.currency)) "INR"
  let rating := jsOrQ (some (u.rating.getD old.rating)) 0
  let ratingCount := jsOrQ (some (u.ratingCount.getD old.ratingCount)) 0
  let stock := jsOrQ (some (u.stock.getD old.stock)) 0
  let isActive := u.isActive.getD old.isActive
  let imageUrls := u.imageUrls.getD old.imageUrls
  let metadata := u.metadata.getD old.metadata
  let analytics := u.analytics.getD old.analytics
  let tags := u.tags.getD old.tags
  let providedText := u.searchableText.getD old.searchableText
  let searchableText :=
    if providedText = "" then
      generateSearchableTextFrom title description brand model category subcategory tags metadata
    else providedText
  validateProduct
    { productId := id, title := title, description := description, category := category,
      subcategory := subcategory, brand := brand, model := model, price := price, mrp := mrp,
      currency := currency, rating := rating, ratingCount := ratingCount, stock := stock,
      isActive := isActive, imageUrls := imageUrls, metadata := metadata,
      analytics := analytics, searchableText := searchableText, tags := tags,
      createdAt := u.createdAt.getD old.createdAt, updatedAt := now }

/-- `update(productId, updateData)`: not-found check, de-index the prior
product, rebuild via the constructor on the spread-merged data, store, and
re-index.  (On a constructor throw the JS state keeps the de-indexed maps;
the error branch here returns the error alone, which no theorem relies
on.) -/
def Repo.update (r : Repo) (id : ℕ) (u : UpdateData) (now : ℤ) :
    Except String (Product × Repo) :=
  match r.products.get? id with
  | none => .error ("Product with ID " ++ toString id ++ " not found")
  | some old =>
    let r1 := Repo.removeFromIndexes old r
    match mergeUpdate old u id now with
    | .error e => .error e
    | .ok updated =>
      let r2 := { r1 with products := r1.products.set id updated }
      .ok (updated, Repo.updateIndexes updated r2)

/-! ### `SearchService` — non-seasonal variant (the module actually exported
for the search API; spec §4.3/§4.5) -/

/-- Ambient runtime facilities used by the scoring code: `Math.log`. -/
structure JsEnv where
  mlog : Frac → Frac

/-- `getMaxUnitsSold()`: maximum over the catalog, with `|| 10000` fallback. -/
def getMaxUnitsSold (r : Repo) : Frac :=
  let m := r.products.values.foldl
    (fun m p => let u := jsOrQ p.analytics.unitsSold 0; if m < u then u else m) 0
  jsOrQ (some m) 10000

/-- `getMaxReviews()`: maximum `ratingCount`, with `|| 1000` fallback. -/
def getMaxReviews (r : Repo) : Frac :=
  let m := r.products.values.foldl
    (fun m p => if m < p.ratingCount then p.ratingCount else m) 0
  jsOrQ (some m) 1000

/-- `calculateFuzzyMatch(term, text)`: Levenshtein similarity, credited only
above the 0.7 threshold. -/
def calculateFuzzyMatch (term text : String) : Frac :=
  if term = "" || text = "" then 0
  else
    let distance := levenshteinDistance term text
    let maxLength := max term.length text.length
    if maxLength = 0 then 0
    else
      let similarity := 1 - Frac.ofInt distance / Frac.ofInt maxLength
      if (0.7 : Frac) < similarity then similarity else 0

/-- Per-term text relevance credit, capped at 1 (`Math.min(1, termRelevance)`
happens at the accumulation site). -/
def termRelevance (term : String) (title description searchableText : String) : Frac :=
  let r0 : Frac := 0
  let r1 := if strIncludes title term then
      (if title = term then r0 + 1
       else if strStarts title term || strEnds title term then r0 + 0.8
       else r0 + 0.6)
    else r0
  let r2 := if strIncludes description term then r1 + 0.4 else r1
  let r3 := if strIncludes searchableText term then r2 + 0.2 else r2
  r3 + calculateFuzzyMatch term title * 0.3

/-- `calculateTextRelevance(product, searchQuery)`. -/
def calculateTextRelevance (p : Product) (q : SearchQuery) : Frac :=
  if q.query = "" then 0.5
  else
    let queryTerms := q.getSearchTerms
    if queryTerms.isEmpty then 0
    else
      let title := jsToLower p.title
      let description := jsToLower p.description
      let searchableText := jsToLower p.searchableText
      let total := queryTerms.foldl
        (fun acc term => acc + fmin 1 (termRelevance term title description searchableText)) 0
      total / Frac.ofInt queryTerms.length

/-- `calculateQualityScore(product)`. -/
def calculateQualityScore (p : Product) : Frac :=
  let ratingScore := jsOrQ (some p.rating) 0 / 5
  let returnRate := jsOrQ p.analytics.returnRate 0.1
  let returnScore := 1 - fmin 1 returnRate
  ratingScore * 0.6 + returnScore * 0.4

/-- `calculatePopularityScore(product)`. -/
def calculatePopularityScore (env : JsEnv) (r : Repo) (p : Product) : Frac :=
  let unitsSold := jsOrQ p.analytics.unitsSold 0
  let maxUnitsSold := getMaxUnitsSold r
  let salesScore :=
    if (0 : Frac) < maxUnitsSold then env.mlog (unitsSold + 1) / env.mlog (maxUnitsSold + 1)
    else 0
  let reviewCount := jsOrQ (some p.ratingCount) 0
  let maxReviews := getMaxReviews r
  let reviewScore :=
    if (0 : Frac) < maxReviews then env.mlog (reviewCount + 1) / env.mlog (maxReviews + 1)
    else 0
  salesScore * 0.7 + reviewScore * 0.3

/-- `calculateBusinessScore(product)`. -/
def calculateBusinessScore (p : Product) : Frac :=
  let stockScore : Frac :=
    if (0 : Frac) < p.stock then
      (if (100 : Frac) < p.stock then 1
       else if (10 : Frac) < p.stock then 0.8
       else if (0 : Frac) < p.stock then 0.5
       else 0)
    else 0
  let discount := Frac.ofInt p.calculateDiscount
  let priceScore := fmin 1 (discount / 50)
  let profitMargin := jsOrQ p.analytics.profitMargin 0.2
  let profitScore := fmin 1 (profitMargin / 0.5)
  stockScore * 0.5 + priceScore * 0.3 + profitScore * 0.2

/-- The fixed popular-brand allow-list. -/
def popularBrands : List String := ["apple", "samsung", "oneplus", "xiaomi", "dell", "hp"]

/-- `applyBoostFactors(baseScore, product, searchQuery)` — the non-seasonal
variant: trending, flash-sale, low-stock urgency, high-margin, popular-brand
and price-sweet-spot multipliers. -/
def applyBoostFactors (baseScore : Frac) (p : Product) : Frac :=
  let s0 := baseScore
  let s1 := if p.analytics.isTrending then s0 * 1.1 else s0
  let s2 := if p.analytics.isOnSale then s1 * 1.15 else s1
  let s3 := if decide ((0 : Frac) < p.stock) && decide (p.stock ≤ 10) then s2 * 1.05 else s2
  let profitMargin := jsOrQ p.analytics.profitMargin 0
  let s4 := if (0.3 : Frac) < profitMargin then s3 * 1.1 else s3
  let s5 := if popularBrands.contains (jsToLower p.brand) then s4 * 1.05 else s4
  if decide ((5000 : Frac) ≤ p.price) && decide (p.price ≤ 30000) then s5 * 1.1 else s5

/-- `calculateRelevanceScore(product, searchQuery)` — the non-seasonal
variant: fixed-weight sum of the four sub-scores, boosts, then the final
clamp to [0, 1]. -/
def calculateRelevanceScore (env : JsEnv) (r : Repo) (p : Product) (q : SearchQuery) : Frac :=
  let score0 : Frac := 0
  let score1 := score0 + calculateTextRelevance p q * 0.4
  let score2 := score1 + calculateQualityScore p * 0.25
  let score3 := score2 + calculatePopularityScore env r p * 0.2
  let score4 := score3 + calculateBusinessScore p * 0.15
  let boosted := applyBoostFactors score4 p
  fmax 0 (fmin 1 boosted)

/-- A scored candidate `{...product, relevanceScore}`: the object spread
copies the product's own data properties but not the `Product` prototype,
so the result has no `toSearchResult` method. -/
structure ScoredProduct where
  product : Product
  relevanceScore : Frac
deriving DecidableEq

/-- `getSortFunction(searchQuery)`: the JS comparator value. -/
def getSortCmp (q : SearchQuery) (a b : ScoredProduct) : Frac :=
  if q.sortBy = "price_low" then a.product.price - b.product.price
  else if q.sortBy = "price_high" then b.product.price - a.product.price
  else if q.sortBy = "rating" then
    let d := b.product.rating - a.product.rating
    if d.eqv 0 then b.product.ratingCount - a.product.ratingCount else d
  else if q.sortBy = "popularity" then
    jsOrQ b.product.analytics.unitsSold 0 - jsOrQ a.product.analytics.unitsSold 0
  else if q.sortBy = "newest" then Frac.ofInt (b.product.createdAt - a.product.createdAt)
  else jsOrQ (some b.relevanceScore) 0 - jsOrQ (some a.relevanceScore) 0

/-- Stable insertion: place `x` before the first element it does not come
after.  For a consistent comparator this reproduces the (stable)
`Array.prototype.sort`. -/
def insertSorted {α : Type} (le : α → α → Bool) (x : α) : List α → List α
  | [] => [x]
  | y :: ys => if le x y then x :: y :: ys else y :: insertSorted le x ys

/-- Stable sort by a boolean `le` relation. -/
def stableSort {α : Type} (le : α → α → Bool) : List α → List α
  | [] => []
  | x :: xs => insertSorted le x (stableSort le xs)

/-- The pagination projection of `performSearch`.  The scored candidates are
spread-copied plain objects (see `ScoredProduct`), so
`typeof product.toSearchResult === "function"` is `false` for every one of
them and the manual fallback object is always built; its `stockStatus`
conditional has no `MEDIUM_STOCK` arm. -/
def fallbackSearchResult (sp : ScoredProduct) : SearchResultItem :=
  let p := sp.product
  { productId := p.productId
    title := p.title
    description := p.description
    price := p.price
    mrp := p.mrp
    currency := jsOrStr (some p.currency) "INR"
    discount :=
      match p.mrp with
      | none => 0
      | some m => if m.eqv 0 then 0 else jsRound ((m - p.price) / m * 100)
    rating := p.rating
    ratingCount := p.ratingCount
    stock := p.stock
    stockStatus :=
      if p.stock.eqv 0 then "OUT_OF_STOCK"
      else if p.stock ≤ 10 then "LOW_STOCK"
      else "HIGH_STOCK"
    brand := p.brand
    category := p.category
    imageUrls := p.imageUrls.take 3
    metadata := p.metadata
    relevanceScore := Frac.ofInt (jsRound (jsOrQ (some sp.relevanceScore) 0 * 100)) / 100
    tags := p.tags }

/-- The `filters` block of a search response. -/
structure SearchFilters where
  category : Option String
  brand : Option String
  minPrice : Option Frac
  maxPrice : Option Frac
  minRating : Option Frac
  inStock : Bool
deriving DecidableEq

/-- The `pagination` block of a search response. -/
structure Pagination where
  limit : ℤ
  offset : ℤ
  hasNext : Bool
  hasPrevious : Bool
deriving DecidableEq

/-- A complete search response.  `executionTime` is the difference of the
two `Date.now()` readings of one synchronous call, modelled at a single
instant, hence `0`. -/
structure SearchResult where
  data : List SearchResultItem
  totalResults : ℕ
  query : String
  filters : SearchFilters
  pagination : Pagination
  sortBy : String
  executionTime : ℤ
deriving DecidableEq

/-- The candidate retrieval of `performSearch`: the token-index search when
a query string is present, otherwise **all** products of the primary map. -/
def searchCandidates (r : Repo) (q : SearchQuery) : List Product :=
  if q.query ≠ "" then
    Repo.search r q.query q.category q.brand q.priceRange q.ratingRange q.inStock
  else r.products.values

/-- The filter pass of `performSearch`: `matchesFilters` on each candidate. -/
def filteredCandidates (r : Repo) (q : SearchQuery) : List Product :=
  (searchCandidates r q).filter (fun p => q.matchesFilters p)

/-- The scoring pass of `performSearch`. -/
def scoredCandidates (env : JsEnv) (r : Repo) (q : SearchQuery) : List ScoredProduct :=
  (filteredCandidates r q).map (fun p => ⟨p, calculateRelevanceScore env r p q⟩)

/-- `performSearch(searchQuery)` — candidate retrieval, filter, score, sort,
count, paginate, project. -/
def performSearch (env : JsEnv) (r : Repo) (q : SearchQuery) : SearchResult :=
  let sorted := stableSort (fun a b => decide (getSortCmp q a b ≤ 0)) (scoredCandidates env r q)
  let totalResults := sorted.length
  let page := jsSlice sorted q.offset (q.offset + q.limit)
  { data := page.map fallbackSearchResult
    totalResults := totalResults
    query := q.query
    filters := ⟨q.category, q.brand, q.minPrice, q.maxPrice, q.minRating, q.inStock⟩
    pagination := ⟨q.limit, q.offset, decide (q.offset + q.limit < (totalResults : ℤ)),
      decide (0 < q.offset)⟩
    sortBy := q.sortBy
    executionTime := 0 }

/-! ### Result cache -/

/-- One cache slot: the complete response and its insertion time. -/
structure CacheEntry where
  data : SearchResult
  timestamp : ℤ
deriving DecidableEq

/-- `this.searchCache` plus `this.cacheStats`. -/
structure ServiceState where
  searchCache : JsMap SearchQuery CacheEntry := JsMap.empty
  hits : ℕ := 0
  misses : ℕ := 0
  evictions : ℕ := 0
deriving DecidableEq

/-- `this.maxCacheSize`. -/
def maxCacheSize : ℕ := 1000

/-- `generateCacheKey(searchQuery)`: base64 of `JSON.stringify` of the full
`toJSON()` record — a deterministic injective encoding of the query record,
modelled by the record itself. -/
def generateCacheKey (q : SearchQuery) : SearchQuery := q

/-- `getFromCache(key)`: fresh entries (strictly younger than the 300 000 ms
TTL) are returned and left in place; stale entries are deleted and reported
as a miss. -/
def getFromCache (cache : JsMap SearchQuery CacheEntry) (key : SearchQuery) (now : ℤ) :
    Option SearchResult × JsMap SearchQuery CacheEntry :=
  match cache.get? key with
  | some e => if now - e.timestamp < 300000 then (some e.data, cache) else (none, cache.del key)
  | none => (none, cache)

/-- `addToCache(key, data)`: when at capacity, delete the first key in
insertion order (counting an eviction), then insert. -/
def addToCache (st : ServiceState) (key : SearchQuery) (data : SearchResult) (now : ℤ) :
    ServiceState :=
  let st1 :=
    if maxCacheSize ≤ st.searchCache.size then
      { st with
        searchCache :=
          match st.searchCache.firstKey? with
          | some fk => st.searchCache.del fk
          | none => st.searchCache
        evictions := st.evictions + 1 }
    else st
  { st1 with searchCache := st1.searchCache.set key ⟨data, now⟩ }

/-- `search(queryParams)`: construct/validate the query, consult the cache
(counting a hit), otherwise count a miss, run `performSearch`, store the
response, and return it. -/
def SearchService.search (env : JsEnv) (repo : Repo) (st : ServiceState) (now : ℤ)
    (params : RawParams) : Except String (SearchResult × ServiceState) :=
  match mkSearchQuery params with
  | .error e => .error e
  | .ok q =>
    let key := generateCacheKey q
    match getFromCache st.searchCache key now with
    | (some data, cache') => .ok (data, { st with searchCache := cache', hits := st.hits + 1 })
    | (none, cache') =>
      let stMiss := { st with searchCache := cache', misses := st.misses + 1 }
      let result := performSearch env repo q
      .ok (result, addToCache stMiss key result now)

/-! ### `SearchService` — festive/seasonal variant (the duplicated ranking
implementation; spec §9 notes the two parallel code paths).  Its
`calculateTextRelevance` / `calculateQualityScore` /
`calculatePopularityScore` / `calculateBusinessScore` are textually
identical to the non-seasonal ones and are shared above. -/

/-- One festive-season record (`name`, date window, peak, categories,
keywords).  The source builds the four season records from the current
year via `Date` parsing; the records themselves are environment data
here. -/
structure Season where
  name : String
  startDate : ℤ
  endDate : ℤ
  peakDate : ℤ
  categories : List String
  keywords : List String
deriving DecidableEq

/-- Ambient runtime of the festive variant: the clock (`Date.now()`), the
four year-dependent season records, and `Math.log`. -/
structure FestiveEnv where
  now : ℤ
  seasons : List Season
  mlog : Frac → Frac

/-- Lookup of a metadata property; the boolean `=== true` checks are
modelled against the string `"true"`. -/
def metaLookup (m : List (String × String)) (k : String) : Option String :=
  (m.find? (fun kv => kv.1 = k)).map Prod.snd

namespace Festive

/-- `getCurrentFestiveSeason()`: the first season whose window contains
now. -/
def getCurrentFestiveSeason (e : FestiveEnv) : Option Season :=
  e.seasons.find? (fun s => decide (s.startDate ≤ e.now) && decide (e.now ≤ s.endDate))

/-- `isNewProduct(product)`: younger than 30 days, or few units sold, or few
ratings. -/
def isNewProduct (e : FestiveEnv) (p : Product) : Bool :=
  let productAge := e.now - p.createdAt
  decide (productAge < 30 * 24 * 60 * 60 * 1000) ||
    decide (jsOrQ p.analytics.unitsSold 0 < 10) ||
    decide (jsOrQ (some p.ratingCount) 0 < 5)

/-- The fixed festive category list. -/
def festiveCategories : List String :=
  ["diwali", "dussehra", "holi", "christmas", "eid", "rakhi", "karva-chauth",
   "ganesh-chaturthi", "navratri", "valentine"]

/-- The fixed festive keyword list. -/
def festiveKeywords : List String :=
  ["festive", "celebration", "gift", "traditional", "ethnic", "decoration",
   "pooja", "wedding", "party", "special occasion"]

/-- `isFestiveProduct(product)`: category substring, tag membership,
title/description keyword, or created inside the current season window. -/
def isFestiveProduct (e : FestiveEnv) (p : Product) : Bool :=
  let category := jsToLower p.category
  if festiveCategories.any (fun fc => strIncludes category fc) then true
  else
    let tags := p.tags.map jsToLower
    if tags.any (fun t => festiveCategories.contains t || festiveKeywords.contains t) then true
    else
      let searchText := jsToLower (p.title ++ " " ++ p.description)
      if festiveKeywords.any (fun k => strIncludes searchText k) then true
      else
        match getCurrentFestiveSeason e with
        | some s => decide (s.startDate ≤ p.createdAt) && decide (p.createdAt ≤ s.endDate)
        | none => false

/-- `Math.abs(peakDate - now) / (1000 * 60 * 60 * 24)`. -/
def daysToPeak (e : FestiveEnv) (s : Season) : Frac :=
  Frac.ofInt (s.peakDate - e.now).natAbs / Frac.ofInt 86400000

/-- `getSeasonMatchScore(product, season)`. -/
def getSeasonMatchScore (p : Product) (s : Season) : Frac :=
  let sc0 := if s.categories.contains (jsToLower p.category) then (0.5 : Frac) else 0
  let productText := jsToLower (p.title ++ " " ++ p.description ++ " " ++ joinSpace p.tags)
  let matchingKeywords := s.keywords.filter (fun k => strIncludes productText k)
  let sc := sc0 + (Frac.ofInt matchingKeywords.length / Frac.ofInt s.keywords.length) * 0.5
  fmin 1 sc

/-- `getQuerySeasonalScore(searchQuery, season)`. -/
def getQuerySeasonalScore (q : SearchQuery) (s : Season) : Frac :=
  if q.query = "" then 0.3
  else
    let queryText := jsToLower q.query
    if (s.keywords.filter (fun k => strIncludes queryText k)).length > 0 then 0.8 else 0.2

/-- `getTimeProximityScore(season)`. -/
def getTimeProximityScore (e : FestiveEnv) (s : Season) : Frac :=
  let d := daysToPeak e s
  if d ≤ 3 then 1
  else if d ≤ 7 then 0.8
  else if d ≤ 14 then 0.6
  else 0.3

/-- `calculateSeasonalRelevance(product, searchQuery)`. -/
def calculateSeasonalRelevance (e : FestiveEnv) (p : Product) (q : SearchQuery) : Frac :=
  match getCurrentFestiveSeason e with
  | none => 0.3
  | some s =>
    let sc := getSeasonMatchScore p s * 0.4 + getQuerySeasonalScore q s * 0.3 +
      getTimeProximityScore e s * 0.3
    fmin 1 sc

/-- `calculateAttributeScore(product, searchQuery)`. -/
def calculateAttributeScore (p : Product) (q : SearchQuery) : Frac :=
  let sc0 : Frac := 0
  let sc1 :=
    if q.query ≠ "" && p.brand ≠ "" then
      let queryLower := jsToLower q.query
      let brandLower := jsToLower p.brand
      if strIncludes queryLower brandLower || strIncludes brandLower queryLower then sc0 + 0.3
      else sc0
    else sc0
  let sc2 :=
    if jsTruthyStr q.category && (p.category == q.category.getD "") then sc1 + 0.4 else sc1
  let sc3 :=
    match p.mrp with
    | some m =>
      if !m.eqv 0 && decide (p.price < m) then
        let discount := (m - p.price) / m * 100
        sc2 + fmin 0.3 (discount / 100)
      else sc2
    | none => sc2
  fmin 1 sc3

/-- `calculateInitialQualityScore(product)`. -/
def calculateInitialQualityScore (p : Product) : Frac :=
  let premiumBrands : List String := ["apple", "samsung", "oneplus", "dell", "hp", "sony"]
  let trustedBrands : List String := ["xiaomi", "realme", "lenovo", "asus", "lg"]
  let sc0 : Frac := 0.5
  let sc1 :=
    if premiumBrands.contains (jsToLower p.brand) then sc0 + 0.3
    else if trustedBrands.contains (jsToLower p.brand) then sc0 + 0.2
    else sc0
  let c0 : Frac := 0
  let c1 := if p.description ≠ "" && p.description.length > 50 then c0 + 0.1 else c0
  let c2 := if p.imageUrls.length ≥ 3 then c1 + 0.1 else c1
  let c3 := if p.tags.length > 0 then c2 + 0.05 else c2
  let c4 := if p.metadata.length > 3 then c3 + 0.05 else c3
  fmin 1 (sc1 + c4)

/-- `isGiftCategory(product)`. -/
def isGiftCategory (p : Product) : Bool :=
  (["gifts", "jewelry", "electronics", "fashion", "toys", "books"] : List String).contains
    (jsToLower p.category)

/-- `calculateFestiveUrgencyScore(product)`. -/
def calculateFestiveUrgencyScore (e : FestiveEnv) (p : Product) : Frac :=
  match getCurrentFestiveSeason e with
  | none => 0.2
  | some s =>
    let totalDuration := s.endDate - s.startDate
    let timeLeft := s.endDate - e.now
    if timeLeft ≤ 0 then 0
    else
      let urgencyRatio := 1 - Frac.ofInt timeLeft / Frac.ofInt totalDuration
      let giftBonus : Frac := if isGiftCategory p then 0.2 else 0
      fmin 1 (urgencyRatio + giftBonus)

/-- `isGiftReady(product)`. -/
def isGiftReady (p : Product) : Bool :=
  let giftIndicators : List String :=
    ["gift wrap", "gift packaging", "gift card", "express delivery",
     "same day delivery", "gift box", "premium packaging"]
  let productText := jsToLower (p.title ++ " " ++ p.description ++ " " ++ joinSpace p.tags)
  giftIndicators.any (fun i => strIncludes productText i) ||
    metaLookup p.metadata "isGiftWrapped" == some "true" ||
    metaLookup p.metadata "hasExpressDelivery" == some "true"

/-- `calculateSeasonalBoost(product, season)`. -/
def calculateSeasonalBoost (e : FestiveEnv) (p : Product) (s : Season) : Frac :=
  let d := daysToPeak e s
  let boost : Frac := if d ≤ 3 then 1.4 else if d ≤ 7 then 1.3 else if d ≤ 14 then 1.2 else 1.1
  let boost := if s.categories.contains (jsToLower p.category) then boost * 1.1 else boost
  if isNewProduct e p then boost * 1.15 else boost

/-- `applyBoostFactors` — festive variant: age boost, seasonal boost,
trending, flash sale, gift readiness, (season-dependent) low-stock urgency,
high margin, popular brand, price sweet spot. -/
def applyBoostFactors (e : FestiveEnv) (baseScore : Frac) (p : Product) : Frac :=
  let s0 := baseScore
  let productAge := e.now - p.createdAt
  let thirtyDays : ℤ := 30 * 24 * 60 * 60 * 1000
  let s1 :=
    if productAge < thirtyDays then
      let ageBoost := fmax 0.1 (1 - Frac.ofInt productAge / Frac.ofInt thirtyDays * 0.5)
      s0 * (1 + ageBoost)
    else s0
  let currentSeason := getCurrentFestiveSeason e
  let s2 :=
    match currentSeason with
    | some se => if isFestiveProduct e p then s1 * calculateSeasonalBoost e p se else s1
    | none => s1
  let s3 := if p.analytics.isTrending then s2 * 1.1 else s2
  let s4 := if p.analytics.isOnSale then s3 * 1.15 else s3
  let s5 :=
    match currentSeason with
    | some _ => if isGiftReady p then s4 * 1.2 else s4
    | none => s4
  let s6 :=
    if decide ((0 : Frac) < p.stock) && decide (p.stock ≤ 10) then
      match currentSeason with
      | some _ => s5 * 1.15
      | none => s5 * 1.05
    else s5
  let profitMargin := jsOrQ p.analytics.profitMargin 0
  let s7 := if (0.3 : Frac) < profitMargin then s6 * 1.1 else s6
  let s8 := if popularBrands.contains (jsToLower p.brand) then s7 * 1.05 else s7
  if decide ((5000 : Frac) ≤ p.price) && decide (p.price ≤ 30000) then s8 * 1.1 else s8

/-- `calculateRelevanceScore(product, searchQuery)` — festive variant: the
three-way split between new festive, new, and existing products, the boost
pass, and the final clamp to [0, 1]. -/
def calculateRelevanceScore (e : FestiveEnv) (r : Repo) (p : Product) (q : SearchQuery) : Frac :=
  let isNew := isNewProduct e p
  let isFest := isFestiveProduct e p
  let jenv : JsEnv := ⟨e.mlog⟩
  let score :=
    if isFest && isNew then
      calculateTextRelevance p q * 0.35 + calculateSeasonalRelevance e p q * 0.35 +
        calculateFestiveUrgencyScore e p * 0.15 + calculateAttributeScore p q * 0.15
    else if isNew then
      calculateTextRelevance p q * 0.6 + calculateAttributeScore p q * 0.25 +
        calculateInitialQualityScore p * 0.15
    else
      let base := calculateTextRelevance p q * 0.4 + calculateQualityScore p * 0.25 +
        calculatePopularityScore jenv r p * 0.2 + calculateBusinessScore p * 0.15
      if isFest then base + calculateSeasonalRelevance e p q * 0.1 else base
  fmax 0 (fmin 1 (applyBoostFactors e score p))

end Festive

/-! ### Concrete fixtures used by witnesses and counterexamples -/

/-- An environment whose `Math.log` is the zero function (any function
works for the properties below). -/
def jenv0 : JsEnv := ⟨fun _ => 0⟩

/-- The query produced by `new SearchQuery({})` (all defaults). -/
def q0 : SearchQuery := { query := "", limit := 20, offset := 0, sortBy := "relevance" }

/-- A minimal valid product with a given stock level. -/
def stockProduct (s : Frac) : Product := { productId := 1, title := "p", price := 1, stock := s }

/-- A soft-deleted product (`isActive = false`). -/
def inactiveProduct : Product :=
  { productId := 1, title := "dead product", price := 100, stock := 5, isActive := false,
    searchableText := "dead product" }

/-- A one-product repository holding only `inactiveProduct`. -/
def repo6 : Repo := Repo.addProduct inactiveProduct {}

/-- A product with stock strictly between 10 and 50. -/
def midStockProduct : Product :=
  { productId := 7, title := "mid stock", price := 100, stock := 30,
    searchableText := "mid stock" }

/-- A one-product repository holding only `midStockProduct`. -/
def repo10 : Repo := Repo.addProduct midStockProduct {}

/-- The prior product of the update counterexample: its `searchableText` is
the generated one, `"phone"`. -/
def oldP : Product := { productId := 1, title := "phone", price := 100, searchableText := "phone" }

/-- A one-product repository holding only `oldP`. -/
def repo3 : Repo := Repo.addProduct oldP {}

/-- The update that changes only the title. -/
def u3 : UpdateData := { title := some "laptop" }

/-- Fallback value for extracting update results. -/
def dummyPair : Product × Repo := ({ productId := 0, title := "x", price := 1 }, {})

/-- The stored product / repository after `repo3.update 1 u3 5`. -/
def c3pair : Product × Repo := ((repo3.update 1 u3 5).toOption).getD dummyPair

/-- Parameters with an out-of-range limit and a negative offset. -/
def c5params : RawParams := { limit := some 500, offset := some (-3) }

/-- A product for the index add/remove round trip. -/
def p4 : Product :=
  { productId := 3, title := "Samsung Galaxy", description := "good phone",
    category := "Electronics", brand := "Samsung", price := 15000, rating := 4.2,
    stock := 25, searchableText := "samsung galaxy good phone samsung electronics" }

/-- A dummy response used as a cache value in the capacity witness. -/
def dummyResult : SearchResult :=
  { data := [], totalResults := 0, query := "", 
    filters := ⟨none, none, none, none, none, false⟩,
    pagination := ⟨20, 0, false, false⟩, sortBy := "relevance", executionTime := 0 }

/-- `n` cache entries with pairwise distinct keys (distinct offsets). -/
def repeatEntries : ℕ → List (SearchQuery × CacheEntry)
  | 0 => []
  | n + 1 => ({ q0 with offset := (n : ℤ) }, ⟨dummyResult, 0⟩) :: repeatEntries n

/-- A full cache: 1000 distinct keys. -/
def bigCache : JsMap SearchQuery CacheEntry := repeatEntries maxCacheSize

/-- A service state whose cache is at capacity. -/
def fullState : ServiceState := { searchCache := bigCache }


/-- The first item of the search response over `repo10` (stock 30). -/
def c10item : SearchResultItem :=
  ((performSearch jenv0 repo10 q0).data).headD (fallbackSearchResult ⟨midStockProduct, 0⟩)

/-! ### Index-consistency predicates (spec §3, "Index entry") -/

/-- Any bucket stored at key `k` avoids `id`. -/
def idFreeAt (m : JsMap String (List ℕ)) (k : String) (id : ℕ) : Prop :=
  ∀ l, m.get? k = some l → id ∉ l

/-- No bucket of the index contains `id`. -/
def idFree (m : JsMap String (List ℕ)) (id : ℕ) : Prop := ∀ k, idFreeAt m k id

/-- No orphaned empty key entry is stored. -/
def noEmptyBuckets (m : JsMap String (List ℕ)) : Prop :=
  ∀ k l, m.get? k = some l → l ≠ []

/-- `id` appears in no bucket of any of the six secondary indexes. -/
def Repo.idFreeAll (r : Repo) (id : ℕ) : Prop :=
  idFree r.searchIndex id ∧ idFree r.categoryIndex id ∧ idFree r.brandIndex id ∧
    idFree r.priceRangeIndex id ∧ idFree r.ratingBucketIndex id ∧ idFree r.stockStatusIndex id

/-- None of the six secondary indexes stores an empty bucket. -/
def Repo.noEmptyAll (r : Repo) : Prop :=
  noEmptyBuckets r.searchIndex ∧ noEmptyBuckets r.categoryIndex ∧
    noEmptyBuckets r.brandIndex ∧ noEmptyBuckets r.priceRangeIndex ∧
    noEmptyBuckets r.ratingBucketIndex ∧ noEmptyBuckets r.stockStatusIndex

/-! ### Helper lemmas: `JsMap` -/

namespace JsMap

variable {K V : Type} [DecidableEq K]

theorem get?_set_self (m : JsMap K V) (k : K) (v : V) : (m.set k v).get? k = some v := by
  induction m with
  | nil => simp [JsMap.set, JsMap.get?]
  | cons kv rest ih =>
    obtain ⟨a, b⟩ := kv
    by_cases h : a = k
    · simp [JsMap.set, JsMap.get?, h]
    · simp [JsMap.set, JsMap.get?, h, ih]

theorem get?_set_ne (m : JsMap K V) (k k' : K) (v : V) (h : k' ≠ k) :
    (m.set k v).get? k' = m.get? k' := by
  have hkk : ¬(k = k') := fun hh => h hh.symm
  induction m with
  | nil => simp [JsMap.set, JsMap.get?, hkk]
  | cons kv rest ih =>
    obtain ⟨a, b⟩ := kv
    by_cases hak : a = k
    · subst hak
      simp [JsMap.set, JsMap.get?, hkk]
    · by_cases hak' : a = k'
      · subst hak'
        simp only [JsMap.set, if_neg hak]
        simp [JsMap.get?]
      · simp [JsMap.set, JsMap.get?, hak, hak', ih]

theorem get?_del_self (m : JsMap K V) (k : K) : (m.del k).get? k = none := by
  induction m with
  | nil => simp [JsMap.del, JsMap.get?]
  | cons kv rest ih =>
    obtain ⟨a, b⟩ := kv
    by_cases h : a = k
    · simpa [JsMap.del, JsMap.get?, h] using ih
    · simpa [JsMap.del, JsMap.get?, h] using ih

theorem get?_del_ne (m : JsMap K V) (k k' : K) (h : k' ≠ k) :
    (m.del k).get? k' = m.get? k' := by
  induction m with
  | nil => simp [JsMap.del, JsMap.get?]
  | cons kv rest ih =>
    obtain ⟨a, b⟩ := kv
    by_cases hak : a = k
    · subst hak
      have hne : ¬(a = k') := fun hh => h hh.symm
      simp [JsMap.del, JsMap.get?, hne, ih]
    · by_cases hak' : a = k'
      · subst hak'
        simp only [JsMap.del, if_neg hak]
        simp [JsMap.get?]
      · simp [JsMap.del, JsMap.get?, hak, hak', ih]

theorem size_set_le (m : JsMap K V) (k : K) (v : V) : (m.set k v).size ≤ m.size + 1 := by
  induction m with
  | nil => simp [JsMap.set, JsMap.size]
  | cons kv rest ih =>
    obtain ⟨a, b⟩ := kv
    by_cases h : a = k
    · simp [JsMap.set, JsMap.size, h]
    · simp only [JsMap.set, if_neg h, JsMap.size, List.length_cons] at ih ⊢
      omega

theorem size_del_le (m : JsMap K V) (k : K) : (m.del k).size ≤ m.size := by
  induction m with
  | nil => simp [JsMap.del, JsMap.size]
  | cons kv rest ih =>
    obtain ⟨a, b⟩ := kv
    by_cases h : a = k
    · simp only [JsMap.del, if_pos h, JsMap.size, List.length_cons] at ih ⊢
      omega
    · simp only [JsMap.del, if_neg h, JsMap.size, List.length_cons] at ih ⊢
      omega

theorem size_del_head (a : K) (b : V) (rest : List (K × V)) :
    (JsMap.del ((a, b) :: rest) a).size ≤ rest.length := by
  simp only [JsMap.del, if_pos rfl]
  have := size_del_le (K := K) (V := V) rest a
  simpa [JsMap.size] using this

end JsMap

/-! ### Helper lemmas: order facts for `Frac`, the clamp -/

theorem Frac.le_total' (x y : Frac) : x ≤ y ∨ y ≤ x := Int.le_total _ _

theorem Frac.le_refl' (x : Frac) : x ≤ x := Int.le_refl _

/-- `Math.max(0, Math.min(1, s))` lies in [0, 1]. -/
theorem fmax_fmin_clamp (s : Frac) : 0 ≤ fmax 0 (fmin 1 s) ∧ fmax 0 (fmin 1 s) ≤ 1 := by
  have hmin : fmin 1 s ≤ 1 := by
    by_cases h : (1 : Frac) ≤ s
    · simp only [fmin, if_pos h]
      exact Frac.le_refl' 1
    · simp only [fmin, if_neg h]
      exact (Frac.le_total' 1 s).resolve_left h
  constructor
  · by_cases h : (0 : Frac) ≤ fmin 1 s
    · simp only [fmax, if_pos h]
      exact h
    · simp only [fmax, if_neg h]
      exact Frac.le_refl' 0
  · by_cases h : (0 : Frac) ≤ fmin 1 s
    · simp only [fmax, if_pos h]
      exact hmin
    · simp only [fmax, if_neg h]
      exact (by decide : (0 : Frac) ≤ 1)

/-! ### Helper lemmas: index buckets -/

theorem bucketAdd_get?_ne (m : JsMap String (List ℕ)) (k k' : String) (id : ℕ) (h : k' ≠ k) :
    (bucketAdd m k id).get? k' = m.get? k' := by
  unfold bucketAdd
  cases hg : m.get? k <;> simp [JsMap.get?_set_ne _ _ _ _ h]

theorem bucketRemove_get?_ne (m : JsMap String (List ℕ)) (k k' : String) (id : ℕ) (h : k' ≠ k) :
    (bucketRemove m k id).get? k' = m.get? k' := by
  unfold bucketRemove
  split
  · rfl
  · split
    · exact JsMap.get?_del_ne _ _ _ h
    · exact JsMap.get?_set_ne _ _ _ _ h

theorem bucketRemove_idFreeAt_self (m : JsMap String (List ℕ)) (k : String) (id : ℕ) :
    idFreeAt (bucketRemove m k id) k id := by
  intro l hl
  unfold bucketRemove at hl
  split at hl
  · next hg =>
    rw [hg] at hl
    cases hl
  · next l0 hg =>
    split at hl
    · rw [JsMap.get?_del_self] at hl
      cases hl
    · rw [JsMap.get?_set_self] at hl
      cases hl
      simp

theorem bucketRemove_preserves_idFreeAt (m : JsMap String (List ℕ)) (k k' : String) (id : ℕ)
    (h : idFreeAt m k' id) : idFreeAt (bucketRemove m k id) k' id := by
  by_cases hk : k' = k
  · subst hk
    exact bucketRemove_idFreeAt_self m k' id
  · intro l hl
    rw [bucketRemove_get?_ne _ _ _ _ hk] at hl
    exact h l hl

theorem bucketAdd_mem_self (m : JsMap String (List ℕ)) (k : String) (id : ℕ) :
    ∃ l, (bucketAdd m k id).get? k = some l ∧ id ∈ l := by
  unfold bucketAdd
  cases hg : m.get? k with
  | none => exact ⟨[id], JsMap.get?_set_self _ _ _, by simp⟩
  | some l =>
    refine ⟨_, JsMap.get?_set_self _ _ _, ?_⟩
    by_cases h : id ∈ l <;> simp [h]

theorem bucketAdd_noEmpty (m : JsMap String (List ℕ)) (k : String) (id : ℕ)
    (h : noEmptyBuckets m) : noEmptyBuckets (bucketAdd m k id) := by
  intro k' l hl
  by_cases hk : k' = k
  · subst hk
    unfold bucketAdd at hl
    cases hg : m.get? k' with
    | none =>
      rw [hg, JsMap.get?_set_self] at hl
      cases hl
      simp
    | some l0 =>
      rw [hg, JsMap.get?_set_self] at hl
      cases hl
      by_cases hm : id ∈ l0
      · simpa [hm] using h _ _ hg
      · simp [hm]
  · rw [bucketAdd_get?_ne _ _ _ _ hk] at hl
    exact h _ _ hl

theorem bucketRemove_noEmpty (m : JsMap String (List ℕ)) (k : String) (id : ℕ)
    (h : noEmptyBuckets m) : noEmptyBuckets (bucketRemove m k id) := by
  intro k' l hl
  by_cases hk : k' = k
  · subst hk
    unfold bucketRemove at hl
    split at hl
    · exact h _ _ hl
    · next l0 hg =>
      split at hl
      · rw [JsMap.get?_del_self] at hl
        cases hl
      · next hempty =>
        rw [JsMap.get?_set_self] at hl
        cases hl
        exact hempty
  · rw [bucketRemove_get?_ne _ _ _ _ hk] at hl
    exact h _ _ hl

/-! ### Helper lemmas: the add-then-remove round trip over an index -/

theorem foldRemove_preserves_idFreeAt (ts : List String) (m : JsMap String (List ℕ))
    (id : ℕ) (k : String) (h : idFreeAt m k id) :
    idFreeAt (ts.foldl (fun m t => bucketRemove m t id) m) k id := by
  induction ts generalizing m with
  | nil => exact h
  | cons t ts ih => exact ih _ (bucketRemove_preserves_idFreeAt _ _ _ _ h)

theorem foldRemove_idFreeAt_mem (ts : List String) (m : JsMap String (List ℕ))
    (id : ℕ) (k : String) (h : k ∈ ts) :
    idFreeAt (ts.foldl (fun m t => bucketRemove m t id) m) k id := by
  induction ts generalizing m with
  | nil => cases h
  | cons t ts ih =>
    rcases List.mem_cons.1 h with rfl | hmem
    · exact foldRemove_preserves_idFreeAt ts _ id k (bucketRemove_idFreeAt_self m k id)
    · exact ih _ hmem

theorem foldAdd_get?_ne (ts : List String) (m : JsMap String (List ℕ)) (id : ℕ)
    (k : String) (h : k ∉ ts) :
    (ts.foldl (fun m t => bucketAdd m t id) m).get? k = m.get? k := by
  induction ts generalizing m with
  | nil => rfl
  | cons t ts ih =>
    have h1 : k ≠ t := fun hh => h (hh ▸ List.mem_cons_self _ _)
    have h2 : k ∉ ts := fun hm => h (List.mem_cons_of_mem _ hm)
    rw [List.foldl_cons, ih _ h2, bucketAdd_get?_ne _ _ _ _ h1]

theorem foldAdd_noEmpty (ts : List String) (m : JsMap String (List ℕ)) (id : ℕ)
    (h : noEmptyBuckets m) :
    noEmptyBuckets (ts.foldl (fun m t => bucketAdd m t id) m) := by
  induction ts generalizing m with
  | nil => exact h
  | cons t ts ih => exact ih _ (bucketAdd_noEmpty _ _ _ h)

theorem foldRemove_noEmpty (ts : List String) (m : JsMap String (List ℕ)) (id : ℕ)
    (h : noEmptyBuckets m) :
    noEmptyBuckets (ts.foldl (fun m t => bucketRemove m t id) m) := by
  induction ts generalizing m with
  | nil => exact h
  | cons t ts ih => exact ih _ (bucketRemove_noEmpty _ _ _ h)

/-- The add-then-remove round trip over one index leaves no occurrence of
`id` anywhere, provided there was none to begin with. -/
theorem addRemove_idFree (ts : List String) (m : JsMap String (List ℕ)) (id : ℕ)
    (h : idFree m id) :
    idFree (ts.foldl (fun m t => bucketRemove m t id)
      (ts.foldl (fun m t => bucketAdd m t id) m)) id := by
  intro k
  by_cases hk : k ∈ ts
  · exact foldRemove_idFreeAt_mem _ _ _ _ hk
  · refine foldRemove_preserves_idFreeAt _ _ _ _ ?_
    intro l hl
    rw [foldAdd_get?_ne _ _ _ _ hk] at hl
    exact h k l hl

/-- The add-then-remove round trip leaves no empty buckets. -/
theorem addRemove_noEmpty (ts : List String) (m : JsMap String (List ℕ)) (id : ℕ)
    (h : noEmptyBuckets m) :
    noEmptyBuckets (ts.foldl (fun m t => bucketRemove m t id)
      (ts.foldl (fun m t => bucketAdd m t id) m)) :=
  foldRemove_noEmpty _ _ _ (foldAdd_noEmpty _ _ _ h)

/-! ## Claim theorems -/

/-- C1: for every product `P` and query `Q`, the relevance score computed by
`calculateRelevanceScore(P, Q)` satisfies `0 ≤ score ≤ 1`: the final score
is clamped to [0, 1] (`Math.max(0, Math.min(1, score))`) after all
multiplicative boost factors — in the non-seasonal variant and in the
festive variant alike, for every environment (clock, seasons, `Math.log`)
and catalog. -/
theorem relevanceScore_clamped_unit_interval (env : JsEnv) (fenv : FestiveEnv) (r : Repo)
    (p : Product) (q : SearchQuery) :
    (0 ≤ calculateRelevanceScore env r p q ∧ calculateRelevanceScore env r p q ≤ 1) ∧
    (0 ≤ Festive.calculateRelevanceScore fenv r p q ∧
      Festive.calculateRelevanceScore fenv r p q ≤ 1) :=
  ⟨fmax_fmin_clamp _, fmax_fmin_clamp _⟩

/-- C9: the derived stock status follows the fixed thresholds — `stock = 0`
gives `OUT_OF_STOCK`, `stock = 10` gives `LOW_STOCK`, `stock = 11` gives
`MEDIUM_STOCK`, and `stock = 51` gives `HIGH_STOCK` (boundaries at 0, 10
and 50). -/
theorem getStockStatus_thresholds (p : Product) :
    (p.stock = 0 → p.getStockStatus = "OUT_OF_STOCK") ∧
    (p.stock = 10 → p.getStockStatus = "LOW_STOCK") ∧
    (p.stock = 11 → p.getStockStatus = "MEDIUM_STOCK") ∧
    (p.stock = 51 → p.getStockStatus = "HIGH_STOCK") := by
  refine ⟨fun h => ?_, fun h => ?_, fun h => ?_, fun h => ?_⟩ <;>
    · simp only [Product.getStockStatus, h]
      decide

/-- Witness for C9 at concrete stock levels 0, 10, 11, 51. -/
theorem getStockStatus_thresholds_witness :
    (stockProduct 0).getStockStatus = "OUT_OF_STOCK" ∧
    (stockProduct 10).getStockStatus = "LOW_STOCK" ∧
    (stockProduct 11).getStockStatus = "MEDIUM_STOCK" ∧
    (stockProduct 51).getStockStatus = "HIGH_STOCK" :=
  ⟨(getStockStatus_thresholds (stockProduct 0)).1 rfl,
   (getStockStatus_thresholds (stockProduct 10)).2.1 rfl,
   (getStockStatus_thresholds (stockProduct 11)).2.2.1 rfl,
   (getStockStatus_thresholds (stockProduct 51)).2.2.2 rfl⟩

/-- C8: query normalization is exactly lower-case + trim, then the
regional-term (Hinglish) table, then the misspelling table, each applied as
a word-boundary-bounded global replacement over the whole string, in that
fixed order; a replacement only fires on whole word runs (witnessed by
`"sastaphone"` staying unchanged); and the colloquial query `"sasta"` is
rewritten to `"cheap"` before tokenization, so the constructed query's
search terms are `["cheap"]`. -/
theorem normalizeQuery_pipeline :
    (∀ raw : String, normalizeQuery raw =
      correctCommonMisspellings (normalizeHinglishQuery (jsToLower (jsTrim raw)))) ∧
    normalizeQuery "sasta" = "cheap" ∧
    normalizeHinglishQuery "sastaphone" = "sastaphone" ∧
    (mkSearchQuery { query := some "sasta" }).toOption.map SearchQuery.getSearchTerms =
      some ["cheap"] :=
  ⟨fun _ => rfl, by decide, by decide, by decide⟩

/-- C5 counterexample: the claim says an out-of-range `limit`/negative
`offset` makes `SearchQuery` construction fail with a validation error; in
fact `new SearchQuery({limit: 500, offset: -3})` succeeds with `limit`
silently capped to 100 and `offset` clamped to 0, and `limit: -5` is
accepted unchanged (below 1, uncapped). -/
theorem searchQuery_limit_not_rejected :
    (mkSearchQuery c5params).toOption.map (fun q => (q.limit, q.offset)) = some (100, 0) ∧
    (mkSearchQuery { limit := some (-5) }).toOption.map (fun q => q.limit) = some (-5) := by
  constructor <;> decide

/-- C5 amended: `SearchQuery` construction never throws on out-of-range
`limit`/`offset` (only price inversion, rating range and `sortBy` are
validated); a supplied nonzero `limit` is capped above at 100
(`min(parseInt(limit) || 20, 100)`) and a nonzero `offset` clamped below at
0 (`max(parseInt(offset) || 0, 0)`), silently. -/
theorem searchQuery_limit_offset_clamped (p : RawParams) (L O : ℤ) (hL : p.limit = some L)
    (hLne : L ≠ 0) (hO : p.offset = some O) (hOne : O ≠ 0)
    (hs : p.sortBy = none) (hmp : p.minPrice = none) (hmx : p.maxPrice = none)
    (hmr : p.minRating = none) :
    ∃ q, mkSearchQuery p = .ok q ∧ q.limit = min L 100 ∧ q.offset = max O 0 := by
  refine ⟨{ query := normalizeQuery (jsOrStr p.query ""),
            limit := min (jsOrInt p.limit 20) 100,
            offset := max (jsOrInt p.offset 0) 0,
            sortBy := jsOrStr p.sortBy "relevance",
            category := p.category, brand := p.brand,
            minPrice := jsTernaryQ p.minPrice, maxPrice := jsTernaryQ p.maxPrice,
            minRating := jsTernaryQ p.minRating,
            inStock := p.inStock == some "true",
            priceRange := p.priceRange, ratingRange := p.ratingRange }, ?_, ?_, ?_⟩
  · simp [mkSearchQuery, hmp, hmx, hmr, hs, jsTernaryQ, jsTruthyQ, jsOrStr, validSortOptions]
  · simp [jsOrInt, hL, hLne]
  · simp [jsOrInt, hO, hOne]

/-- Witness for the amended C5 at `limit = 500`, `offset = -3`. -/
theorem searchQuery_limit_offset_clamped_witness :
    ∃ q, mkSearchQuery c5params = .ok q ∧ q.limit = min 500 100 ∧ q.offset = max (-3) 0 :=
  searchQuery_limit_offset_clamped c5params 500 (-3) rfl (by decide) rfl (by decide)
    rfl rfl rfl rfl

/-! ### Helper lemmas: `addToCache` -/

theorem addToCache_evict_eq (a : SearchQuery) (b : CacheEntry)
    (rest : List (SearchQuery × CacheEntry)) (hits misses evictions : ℕ) (key : SearchQuery)
    (data : SearchResult) (now : ℤ) (hcap : maxCacheSize ≤ JsMap.size ((a, b) :: rest)) :
    addToCache ⟨(a, b) :: rest, hits, misses, evictions⟩ key data now =
      ⟨JsMap.set (JsMap.del ((a, b) :: rest) a) key ⟨data, now⟩, hits, misses, evictions + 1⟩ := by
  simp [addToCache, if_pos hcap, JsMap.firstKey?]

theorem addToCache_noevict_eq (st : ServiceState) (key : SearchQuery) (data : SearchResult)
    (now : ℤ) (hlt : st.searchCache.size < maxCacheSize) :
    addToCache st key data now =
      { st with searchCache := st.searchCache.set key ⟨data, now⟩ } := by
  simp [addToCache, if_neg (not_le_of_lt hlt)]

theorem addToCache_get?_self (st : ServiceState) (key : SearchQuery) (data : SearchResult)
    (now : ℤ) :
    (addToCache st key data now).searchCache.get? key = some ⟨data, now⟩ :=
  JsMap.get?_set_self _ _ _

theorem addToCache_hits (st : ServiceState) (key : SearchQuery) (data : SearchResult) (now : ℤ) :
    (addToCache st key data now).hits = st.hits := by
  by_cases hcap : maxCacheSize ≤ st.searchCache.size <;> simp [addToCache, hcap]

theorem addToCache_misses (st : ServiceState) (key : SearchQuery) (data : SearchResult)
    (now : ℤ) : (addToCache st key data now).misses = st.misses := by
  by_cases hcap : maxCacheSize ≤ st.searchCache.size <;> simp [addToCache, hcap]

/-- C7: the result cache never exceeds 1000 entries — an insert at capacity
first evicts exactly one entry, the oldest-inserted one (the first key in
the map's insertion order), deterministically, and counts one eviction; an
insert below capacity evicts nothing; and a cache hit leaves the map
unchanged (insertion-order FIFO, not LRU-on-access). -/
theorem cache_capacity_fifo :
    (∀ (st : ServiceState) (key : SearchQuery) (data : SearchResult) (now : ℤ),
      st.searchCache.size ≤ maxCacheSize →
      (addToCache st key data now).searchCache.size ≤ maxCacheSize) ∧
    (∀ (st : ServiceState) (key : SearchQuery) (data : SearchResult) (now : ℤ),
      maxCacheSize ≤ st.searchCache.size →
      ∃ fk, st.searchCache.firstKey? = some fk ∧
        (addToCache st key data now).searchCache =
          (st.searchCache.del fk).set key ⟨data, now⟩ ∧
        (addToCache st key data now).evictions = st.evictions + 1) ∧
    (∀ (st : ServiceState) (key : SearchQuery) (data : SearchResult) (now : ℤ),
      st.searchCache.size < maxCacheSize →
      (addToCache st key data now).searchCache = st.searchCache.set key ⟨data, now⟩ ∧
      (addToCache st key data now).evictions = st.evictions) ∧
    (∀ (cache : JsMap SearchQuery CacheEntry) (key : SearchQuery) (now : ℤ) (e : CacheEntry),
      cache.get? key = some e → now - e.timestamp < 300000 →
      getFromCache cache key now = (some e.data, cache)) := by
  refine ⟨?_, ?_, ?_, ?_⟩
  · intro st key data now hle
    by_cases hcap : maxCacheSize ≤ st.searchCache.size
    · obtain ⟨cache, hits, misses, evictions⟩ := st
      cases cache with
      | nil => simp [JsMap.size, maxCacheSize] at hcap
      | cons kv rest =>
        obtain ⟨a, b⟩ := kv
        rw [addToCache_evict_eq a b rest hits misses evictions key data now hcap]
        have h1 := JsMap.size_set_le (JsMap.del ((a, b) :: rest) a) key
          (⟨data, now⟩ : CacheEntry)
        have h2 := JsMap.size_del_head a b rest
        simp only [JsMap.size, List.length_cons, maxCacheSize] at hle h1 h2 ⊢
        omega
    · rw [addToCache_noevict_eq st key data now (lt_of_not_le hcap)]
      have h1 := JsMap.size_set_le st.searchCache key (⟨data, now⟩ : CacheEntry)
      have h2 : st.searchCache.size < maxCacheSize := lt_of_not_le hcap
      simp only [maxCacheSize] at *
      omega
  · intro st key data now hcap
    obtain ⟨cache, hits, misses, evictions⟩ := st
    cases cache with
    | nil => simp [JsMap.size, maxCacheSize] at hcap
    | cons kv rest =>
      obtain ⟨a, b⟩ := kv
      refine ⟨a, rfl, ?_, ?_⟩
      · rw [addToCache_evict_eq a b rest hits misses evictions key data now hcap]
      · rw [addToCache_evict_eq a b rest hits misses evictions key data now hcap]
  · intro st key data now hlt
    rw [addToCache_noevict_eq st key data now hlt]
    exact ⟨rfl, rfl⟩
  · intro cache key now e hget httl
    simp [getFromCache, hget, if_pos httl]

/-- Witness for C7: a cache holding exactly 1000 entries stays within the
bound and evicts its first-inserted key; an insert into the empty state
evicts nothing; a fresh hit leaves a singleton cache unchanged. -/
theorem cache_capacity_fifo_witness :
    ((addToCache fullState q0 dummyResult 0).searchCache.size ≤ maxCacheSize) ∧
    (∃ fk, fullState.searchCache.firstKey? = some fk ∧
      (addToCache fullState q0 dummyResult 0).searchCache =
        (fullState.searchCache.del fk).set q0 ⟨dummyResult, 0⟩ ∧
      (addToCache fullState q0 dummyResult 0).evictions = fullState.evictions + 1) ∧
    ((addToCache ({} : ServiceState) q0 dummyResult 0).searchCache =
        ({} : ServiceState).searchCache.set q0 ⟨dummyResult, 0⟩ ∧
      (addToCache ({} : ServiceState) q0 dummyResult 0).evictions =
        ({} : ServiceState).evictions) ∧
    getFromCache [(q0, ⟨dummyResult, 5⟩)] q0 6 =
      (some dummyResult, [(q0, ⟨dummyResult, 5⟩)]) :=
  have hrep : ∀ n, (repeatEntries n).length = n := by
    intro n
    induction n with
    | zero => rfl
    | succ n ih => simp [repeatEntries, ih]
  have hsize : fullState.searchCache.size = maxCacheSize := hrep maxCacheSize
  ⟨cache_capacity_fifo.1 fullState q0 dummyResult 0 (le_of_eq hsize),
   cache_capacity_fifo.2.1 fullState q0 dummyResult 0 (ge_of_eq hsize),
   cache_capacity_fifo.2.2.1 ({} : ServiceState) q0 dummyResult 0 (by decide),
   cache_capacity_fifo.2.2.2 [(q0, ⟨dummyResult, 5⟩)] q0 6 ⟨dummyResult, 5⟩ rfl (by decide)⟩

/-- C2: calling `search(Q)` twice with no catalog mutation in between, the
first a cache miss and the second within the 300-second TTL, returns the
very same response object on the second call and increments the cache-hit
counter exactly once (the first call counts one miss); and `getFromCache`
returns a stored value exactly when `now - insertedAt < 300000` ms,
deleting the entry and reporting a miss otherwise. -/
theorem search_cache_idempotent_hit :
    (∀ (env : JsEnv) (repo : Repo) (st : ServiceState) (t1 t2 : ℤ) (params : RawParams)
        (q : SearchQuery),
      mkSearchQuery params = .ok q →
      st.searchCache.get? (generateCacheKey q) = none →
      t2 - t1 < 300000 →
      ∃ r1 st1 st2,
        SearchService.search env repo st t1 params = .ok (r1, st1) ∧
        SearchService.search env repo st1 t2 params = .ok (r1, st2) ∧
        st1.hits = st.hits ∧ st1.misses = st.misses + 1 ∧
        st2.hits = st.hits + 1 ∧ st2.misses = st1.misses) ∧
    (∀ (cache : JsMap SearchQuery CacheEntry) (key : SearchQuery) (now : ℤ),
      (cache.get? key = none → getFromCache cache key now = (none, cache)) ∧
      (∀ e, cache.get? key = some e →
        (now - e.timestamp < 300000 → getFromCache cache key now = (some e.data, cache)) ∧
        (¬ now - e.timestamp < 300000 → getFromCache cache key now = (none, cache.del key)))) := by
  constructor
  · intro env repo st t1 t2 params q hq hmiss httl
    refine
      ⟨performSearch env repo q,
       addToCache { st with misses := st.misses + 1 } (generateCacheKey q)
         (performSearch env repo q) t1,
       { addToCache { st with misses := st.misses + 1 } (generateCacheKey q)
           (performSearch env repo q) t1 with
         hits := (addToCache { st with misses := st.misses + 1 } (generateCacheKey q)
           (performSearch env repo q) t1).hits + 1 },
       ?_, ?_, ?_, ?_, ?_, ?_⟩
    · simp only [SearchService.search, hq, getFromCache, hmiss]
    · have hget2 : (addToCache { st with misses := st.misses + 1 } (generateCacheKey q)
          (performSearch env repo q) t1).searchCache.get? (generateCacheKey q) =
          some ⟨performSearch env repo q, t1⟩ := addToCache_get?_self _ _ _ _
      simp only [SearchService.search, hq, getFromCache, hget2, if_pos httl]
    · rw [addToCache_hits]
    · rw [addToCache_misses]
    · rw [addToCache_hits]
    · rfl
  · intro cache key now
    constructor
    · intro hnone
      simp [getFromCache, hnone]
    · intro e hsome
      constructor
      · intro h
        simp [getFromCache, hsome, if_pos h]
      · intro h
        simp [getFromCache, hsome, if_neg h]

/-- Witness for C2: two searches with default parameters on the empty
catalog, at times 0 and 1. -/
theorem search_cache_idempotent_hit_witness :
    ∃ r1 st1 st2,
      SearchService.search jenv0 {} {} 0 {} = .ok (r1, st1) ∧
      SearchService.search jenv0 {} st1 1 {} = .ok (r1, st2) ∧
      st1.hits = ({} : ServiceState).hits ∧ st1.misses = ({} : ServiceState).misses + 1 ∧
      st2.hits = ({} : ServiceState).hits + 1 ∧ st2.misses = st1.misses :=
  search_cache_idempotent_hit.1 jenv0 {} {} 0 1 {} q0 rfl rfl (by decide)

/-- C6 counterexample: a search without a text query does **not** restrict
to active products — on a catalog holding a single `isActive = false`
product, the default query (empty text) returns that product. -/
theorem noquery_search_includes_inactive :
    inactiveProduct.isActive = false ∧
    mkSearchQuery {} = .ok q0 ∧ q0.query = "" ∧
    (performSearch jenv0 repo6 q0).data.map (fun r => r.productId) = [1] := by
  refine ⟨rfl, rfl, rfl, ?_⟩
  decide

/-- C6 amended: for a no-text-query search the candidate set is **all**
products of the primary map (active or not), and the only filtering applied
is `matchesFilters`, which reads category/brand/price/rating/stock but is
insensitive to `isActive`; an inactive product passing those filters
appears in the response. -/
theorem noquery_candidates_ignore_isActive (r : Repo) (q : SearchQuery) (hq : q.query = "") (p : Product) :
    (p ∈ searchCandidates r q ↔ p ∈ r.products.values) ∧
    (p ∈ filteredCandidates r q ↔ p ∈ r.products.values ∧ q.matchesFilters p = true) ∧
    (∀ b, q.matchesFilters { p with isActive := b } = q.matchesFilters p) := by
  refine ⟨?_, ?_, fun b => rfl⟩
  · simp [searchCandidates, hq]
  · simp [filteredCandidates, searchCandidates, hq, List.mem_filter]

/-- C10: every scored candidate is a spread-copied plain object without the
`Product` prototype's `toSearchResult`, so the pagination projection always
takes the manual fallback branch, whose `stockStatus` conditional has no
`MEDIUM_STOCK` arm: every item of every search response has status
`OUT_OF_STOCK`, `LOW_STOCK` or `HIGH_STOCK`, never `MEDIUM_STOCK`, and any
item with stock above 10 (well-formed positive denominator) reports
`HIGH_STOCK` — even between 11 and 50. -/
theorem searchResponse_stockStatus_never_medium (env : JsEnv) (r : Repo) (q : SearchQuery)
    (item : SearchResultItem) (h : item ∈ (performSearch env r q).data) :
    item.stockStatus ≠ "MEDIUM_STOCK" ∧
    (item.stockStatus = "OUT_OF_STOCK" ∨ item.stockStatus = "LOW_STOCK" ∨
      item.stockStatus = "HIGH_STOCK") ∧
    (0 < item.stock.den → (10 : Frac) < item.stock → item.stockStatus = "HIGH_STOCK") := by
  have hdata : (performSearch env r q).data =
      (jsSlice (stableSort (fun a b => decide (getSortCmp q a b ≤ 0)) (scoredCandidates env r q))
        q.offset (q.offset + q.limit)).map fallbackSearchResult := rfl
  rw [hdata] at h
  obtain ⟨sp, hsp, rfl⟩ := List.mem_map.1 h
  refine ⟨?_, ?_, ?_⟩
  · by_cases h0 : sp.product.stock.eqv 0 <;> by_cases h10 : sp.product.stock ≤ (10 : Frac) <;>
      simp [fallbackSearchResult, h0, h10]
  · by_cases h0 : sp.product.stock.eqv 0 <;> by_cases h10 : sp.product.stock ≤ (10 : Frac) <;>
      simp [fallbackSearchResult, h0, h10]
  · intro hden hlt
    have hden' : (0 : ℤ) < sp.product.stock.den := hden
    have hlt' : (10 : ℤ) * sp.product.stock.den < sp.product.stock.num * 1 := hlt
    have h0 : sp.product.stock.eqv 0 = false := by
      have hne : sp.product.stock.num * (1 : ℤ) ≠ 0 * sp.product.stock.den := by omega
      exact beq_eq_false_iff_ne.mpr hne
    have h10 : ¬(sp.product.stock ≤ (10 : Frac)) := by
      intro hle
      have hle' : sp.product.stock.num * 1 ≤ (10 : ℤ) * sp.product.stock.den := hle
      omega
    simp [fallbackSearchResult, h0, h10]

/-- Witness for the amended C6 at the one-inactive-product repository. -/
theorem noquery_candidates_ignore_isActive_witness :
    (inactiveProduct ∈ searchCandidates repo6 q0 ↔ inactiveProduct ∈ repo6.products.values) ∧
    (inactiveProduct ∈ filteredCandidates repo6 q0 ↔
      inactiveProduct ∈ repo6.products.values ∧ q0.matchesFilters inactiveProduct = true) ∧
    (∀ b, q0.matchesFilters { inactiveProduct with isActive := b } =
      q0.matchesFilters inactiveProduct) :=
  noquery_candidates_ignore_isActive repo6 q0 rfl inactiveProduct

/-- Witness for C10: the response item for a product with stock 30 reports
`HIGH_STOCK`, not `MEDIUM_STOCK`. -/
theorem searchResponse_stockStatus_never_medium_witness :
    c10item ∈ (performSearch jenv0 repo10 q0).data ∧
    0 < c10item.stock.den ∧ (10 : Frac) < c10item.stock ∧
    c10item.stockStatus ≠ "MEDIUM_STOCK" ∧ c10item.stockStatus = "HIGH_STOCK" :=
  have hmem : c10item ∈ (performSearch jenv0 repo10 q0).data := by decide
  ⟨hmem, by decide, by decide,
    (searchResponse_stockStatus_never_medium jenv0 repo10 q0 c10item hmem).1,
    (searchResponse_stockStatus_never_medium jenv0 repo10 q0 c10item hmem).2.2
      (by decide) (by decide)⟩

/-- `Product.validate()` returns the product unchanged when it passes. -/
theorem validateProduct_ok (p p' : Product) (h : validateProduct p = .ok p') : p' = p := by
  unfold validateProduct at h
  split at h
  · cases h
  · split at h
    · cases h
    · split at h
      · cases h
      · split at h
        · cases h
        · cases h
          rfl

/-- C3 counterexample: updating a product's title through
`update(id, partial)` does **not** recompute `searchableText` — after
updating the title `"phone"` to `"laptop"`, the stored product still
carries the prior `searchableText` `"phone"`, while recomputing from the
merged fields would give `"laptop"` (the constructor's
`data.searchableText || generate` keeps the truthy spread-in prior text). -/
theorem update_searchableText_stale :
    ((repo3.update 1 u3 5).toOption.map
      (fun pr => (pr.1.title, pr.1.searchableText, pr.1.generateSearchableText))) =
      some ("laptop", "phone", "laptop") := by decide

/-- C3 amended: after a successful `update(id, partial)` whose partial does
not supply `searchableText`, the stored product carries the *prior*
(possibly stale) `searchableText` verbatim whenever it was non-empty, while
the scalar fields are the merged values and the derived bucket indexes
(price range, rating bucket, stock status) are rebuilt from the merged
values — the buckets are fresh, the searchable text is not. -/
theorem update_keeps_prior_searchableText (r : Repo) (id : ℕ) (old updated : Product) (u : UpdateData) (now : ℤ) (r' : Repo)
    (hold : r.products.get? id = some old)
    (hup : (r.update id u now).toOption = some (updated, r'))
    (hst : u.searchableText = none) (hne : old.searchableText ≠ "") :
    updated.searchableText = old.searchableText ∧
    updated.title = u.title.getD old.title ∧
    updated.price = u.price.getD old.price ∧
    r'.products.get? id = some updated ∧
    (∃ l, r'.priceRangeIndex.get? updated.getPriceRange = some l ∧ updated.productId ∈ l) ∧
    (∃ l, r'.ratingBucketIndex.get? updated.getRatingBucket = some l ∧ updated.productId ∈ l) ∧
    (∃ l, r'.stockStatusIndex.get? updated.getStockStatus = some l ∧ updated.productId ∈ l) := by
  unfold Repo.update at hup
  cases hmerge : mergeUpdate old u id now with
  | error e =>
    simp only [hold, hmerge, Except.toOption] at hup
    cases hup
  | ok up =>
    simp only [hold, hmerge, Except.toOption, Option.some.injEq, Prod.mk.injEq] at hup
    obtain ⟨h1, h2⟩ := hup
    subst h1
    subst h2
    have hP := validateProduct_ok _ _ hmerge
    subst hP
    refine ⟨?_, rfl, rfl, ?_, ?_, ?_, ?_⟩
    · show (if (u.searchableText.getD old.searchableText) = "" then _
        else (u.searchableText.getD old.searchableText)) = old.searchableText
      rw [hst]
      simp [hne]
    · exact JsMap.get?_set_self _ _ _
    · exact bucketAdd_mem_self _ _ _
    · exact bucketAdd_mem_self _ _ _
    · exact bucketAdd_mem_self _ _ _

/-- Witness for the amended C3: the title update on `repo3`. -/
theorem update_keeps_prior_searchableText_witness :
    c3pair.1.searchableText = oldP.searchableText ∧
    c3pair.1.title = u3.title.getD oldP.title ∧
    c3pair.1.price = u3.price.getD oldP.price ∧
    c3pair.2.products.get? 1 = some c3pair.1 ∧
    (∃ l, c3pair.2.priceRangeIndex.get? c3pair.1.getPriceRange = some l ∧
      c3pair.1.productId ∈ l) ∧
    (∃ l, c3pair.2.ratingBucketIndex.get? c3pair.1.getRatingBucket = some l ∧
      c3pair.1.productId ∈ l) ∧
    (∃ l, c3pair.2.stockStatusIndex.get? c3pair.1.getStockStatus = some l ∧
      c3pair.1.productId ∈ l) :=
  update_keeps_prior_searchableText repo3 1 oldP c3pair.1 u3 5 c3pair.2 rfl rfl rfl (by decide)

theorem guardedAddRemove_idFree (g : Prop) [Decidable g] (m : JsMap String (List ℕ))
    (k : String) (id : ℕ) (h : idFree m id) :
    idFree (if g then bucketRemove (if g then bucketAdd m k id else m) k id
            else (if g then bucketAdd m k id else m)) id := by
  by_cases hg : g
  · simp only [if_pos hg]
    exact addRemove_idFree [k] m id h
  · simp only [if_neg hg]
    exact h

theorem guardedAddRemove_noEmpty (g : Prop) [Decidable g] (m : JsMap String (List ℕ))
    (k : String) (id : ℕ) (h : noEmptyBuckets m) :
    noEmptyBuckets (if g then bucketRemove (if g then bucketAdd m k id else m) k id
            else (if g then bucketAdd m k id else m)) := by
  by_cases hg : g
  · simp only [if_pos hg]
    exact addRemove_noEmpty [k] m id h
  · simp only [if_neg hg]
    exact h

/-- C4: for a product `P` indexed via `updateIndexes` and then removed via
`removeFromIndexes` with unchanged fields, no bucket of any of the six
secondary indexes (token, category, brand, price range, rating bucket,
stock status) contains `P`'s id afterwards, and no empty bucket entry is
left behind — provided `P`'s id was in no bucket and no empty bucket
existed beforehand. -/
theorem indexes_add_remove_roundtrip (r : Repo) (p : Product)
    (h1 : Repo.idFreeAll r p.productId) (h2 : Repo.noEmptyAll r) :
    Repo.idFreeAll (Repo.removeFromIndexes p (Repo.updateIndexes p r)) p.productId ∧
    Repo.noEmptyAll (Repo.removeFromIndexes p (Repo.updateIndexes p r)) := by
  obtain ⟨hs, hc, hb, hp, hr, hst⟩ := h1
  obtain ⟨es, ec, eb, ep, er, est⟩ := h2
  refine ⟨⟨?_, ?_, ?_, ?_, ?_, ?_⟩, ⟨?_, ?_, ?_, ?_, ?_, ?_⟩⟩
  · exact addRemove_idFree _ _ _ hs
  · exact guardedAddRemove_idFree (p.category ≠ "") _ _ _ hc
  · exact guardedAddRemove_idFree (p.brand ≠ "") _ _ _ hb
  · exact addRemove_idFree [p.getPriceRange] _ _ hp
  · exact addRemove_idFree [p.getRatingBucket] _ _ hr
  · exact addRemove_idFree [p.getStockStatus] _ _ hst
  · exact addRemove_noEmpty _ _ p.productId es
  · exact guardedAddRemove_noEmpty (p.category ≠ "") _ _ _ ec
  · exact guardedAddRemove_noEmpty (p.brand ≠ "") _ _ _ eb
  · exact addRemove_noEmpty [p.getPriceRange] _ p.productId ep
  · exact addRemove_noEmpty [p.getRatingBucket] _ p.productId er
  · exact addRemove_noEmpty [p.getStockStatus] _ p.productId est

/-- Witness for C4: the round trip of `p4` over the empty repository, with
the hypotheses discharged on the empty indexes; the token bucket for
`"samsung"` is gone afterwards. -/
theorem indexes_add_remove_roundtrip_witness :
    (Repo.idFreeAll (Repo.removeFromIndexes p4 (Repo.updateIndexes p4 ({} : Repo)))
      p4.productId ∧
    Repo.noEmptyAll (Repo.removeFromIndexes p4 (Repo.updateIndexes p4 ({} : Repo)))) ∧
    (Repo.removeFromIndexes p4 (Repo.updateIndexes p4 ({} : Repo))).searchIndex.get?
      "samsung" = none :=
  ⟨indexes_add_remove_roundtrip ({} : Repo) p4
    (by refine ⟨?_, ?_, ?_, ?_, ?_, ?_⟩ <;> exact fun _ _ h => nomatch h)
    (by refine ⟨?_, ?_, ?_, ?_, ?_, ?_⟩ <;> exact fun _ _ h => nomatch h),
   by decide⟩
